import Mathlib

/-!
Verification of the area-weighted conservative regridding engine of the
iris repository, together with two helpers that live in the repository
sources (the test helper for subsampled coordinates, and the UM
fieldsfile loading entry points).

The regridding engine itself is described by the design document; the
repository sources at hand contain its test suite.  The engine is
therefore modelled here from the design document (section 3 data model,
sections 4.1 to 4.5 component contracts), and the claims are settled
against that model.  All cell bounds and data values are rational
numbers, so every definition is executable and every concrete instance
can be evaluated inside proofs.
-/

namespace AreaWeightedRegrid

/-- Modelled from the spec (section 3, Axis): a cell bound is a pair of
a lower and an upper edge coordinate. -/
abbrev Bound := ℚ × ℚ

/-- Modelled from the spec (section 3): an ascending monotonic,
contiguous bounds list: every cell has a lower edge strictly below its
upper edge, and the upper edge of each cell equals the lower edge of
the next. -/
def isAscending : List Bound → Bool
  | [] => true
  | [b] => decide (b.1 < b.2)
  | b :: b2 :: rest => (decide (b.1 < b.2) && decide (b.2 = b2.1)) && isAscending (b2 :: rest)

/-- Modelled from the spec (section 3): a descending monotonic,
contiguous bounds list. -/
def isDescending : List Bound → Bool
  | [] => true
  | [b] => decide (b.2 < b.1)
  | b :: b2 :: rest => (decide (b.2 < b.1) && decide (b.2 = b2.1)) && isDescending (b2 :: rest)

/-- Modelled from the spec (section 4.1): the validator hands the rest
of the pipeline normalized (ascending-order) copies of the axes; a
descending axis is reversed with each bound pair swapped. -/
def normalizeBounds (bs : List Bound) : List Bound :=
  if isDescending bs then (bs.reverse.map fun b => (b.2, b.1)) else bs

/-- Modelled from the spec (sections 3 and 4.1): bounds are acceptable
when they are monotonic and contiguous in either direction. -/
def contiguousOk (bs : List Bound) : Bool :=
  isAscending bs || isDescending bs

/-- Modelled from the spec (section 3, Axis): an ordered sequence of
cell bounds, optionally flagged circular with a known period.  The
bounds are optional because a coordinate may lack bounds, which the
validator must reject. -/
structure Axis where
  bounds : Option (List Bound)
  circular : Bool
  period : ℚ
deriving DecidableEq

/-- Modelled from the spec (section 3, Field and Grid): a field carries
its two spatial axes (absent when the corresponding coordinate is
missing from the cube), a coordinate-reference identity token, a data
array with an element-wise validity mask, and a flag recording whether
the stored dimension order is (x, y) instead of the canonical (y, x). -/
structure Field where
  xAxis : Option Axis
  yAxis : Option Axis
  refToken : ℕ
  data : List (List ℚ)
  mask : List (List Bool)
  transposed : Bool
deriving DecidableEq

/-- Modelled from the spec (section 7): the validation error taxonomy.
Missing coordinates are reported as reference incompatibilities, as
section 7 specifies. -/
inductive RegridError where
  | missingBounds
  | discontiguousBounds
  | incompatibleReference
deriving DecidableEq

/-- Modelled from the spec (section 4.1, BoundsValidator): fails with
the missing-bounds error if any of the four axes lacks bounds, with the
discontiguous-bounds error if any bounds list is not monotonic and
contiguous, and with the incompatible-reference error if the reference
tokens differ or a required coordinate is absent entirely. -/
def validate (src dest : Field) : Except RegridError Unit :=
  match src.xAxis, src.yAxis, dest.xAxis, dest.yAxis with
  | some sxA, some syA, some dxA, some dyA =>
    if src.refToken ≠ dest.refToken then .error .incompatibleReference
    else
      match sxA.bounds, syA.bounds, dxA.bounds, dyA.bounds with
      | some bsx, some bsy, some bdx, some bdy =>
        if contiguousOk bsx && contiguousOk bsy && contiguousOk bdx && contiguousOk bdy then
          .ok ()
        else .error .discontiguousBounds
      | _, _, _, _ => .error .missingBounds
  | _, _, _, _ => .error .incompatibleReference

/-- Helper: the j-th cell of a bounds list (a degenerate empty cell
when out of range; all computations only consult indices in range). -/
def cellAt (bs : List Bound) (j : ℕ) : Bound := bs.getD j (0, 0)

/-- Modelled from the spec (section 4.2): the linear overlap length of
the destination interval with one source interval, clipped at the
boundaries and never negative. -/
def overlapLen (dlo dhi slo shi : ℚ) : ℚ :=
  max 0 (min dhi shi - max dlo slo)

/-- Modelled from the spec (section 4.2, degenerate inputs): a point
destination contributes weight one to the single enclosing source cell,
a point on a shared cell boundary being attributed to the higher-index
cell. -/
def pointW (p : ℚ) (b : Bound) : ℚ :=
  if b.1 ≤ p ∧ p < b.2 then 1 else 0

/-- Modelled from the spec (section 4.2, IntervalOverlap): the overlap
fraction of the destination interval with source cell j.  Non-circular
case: exact linear overlap divided by the destination width.  Circular
case: the destination interval is wrapped into the period span of the
source axis by an integer multiple of the period, and if the wrapped
interval crosses the period seam it is split into two sub-intervals
whose weights are summed. -/
def axisWeightAt (circ : Bool) (period : ℚ) (bs : List Bound) (dlo dhi : ℚ) (j : ℕ) : ℚ :=
  let b := cellAt bs j
  if circ then
    let slo := (cellAt bs 0).1
    let off := period * (⌊(dlo - slo) / period⌋ : ℤ)
    let wlo := dlo - off
    let whi := dhi - off
    if wlo = whi then pointW wlo b
    else if whi ≤ slo + period then overlapLen wlo whi b.1 b.2 / (dhi - dlo)
    else (overlapLen wlo (slo + period) b.1 b.2 + overlapLen slo (whi - period) b.1 b.2) / (dhi - dlo)
  else
    if dlo = dhi then pointW dlo b
    else overlapLen dlo dhi b.1 b.2 / (dhi - dlo)

/-- Helper: entry (i, j) of a rational matrix stored as a row list. -/
def getD2 (m : List (List ℚ)) (i j : ℕ) : ℚ := (m.getD i []).getD j 0

/-- Helper: entry (i, j) of a boolean matrix stored as a row list. -/
def getB2 (m : List (List Bool)) (i j : ℕ) : Bool := (m.getD i []).getD j false

/-- Helper: build an r-by-c matrix from an entry function. -/
def buildMat (r c : ℕ) (f : ℕ → ℕ → α) : List (List α) :=
  (List.range r).map fun i => (List.range c).map fun j => f i j

/-- Modelled from the spec (sections 4.3 and 4.4): everything the
weight builder and aggregator need about the source: the normalized
bounds of both source axes, their circularity data, and logical (y, x)
indexed accessors for the source data and mask. -/
structure SrcCtx where
  ybs : List Bound
  xbs : List Bound
  ycirc : Bool
  yperiod : ℚ
  xcirc : Bool
  xperiod : ℚ
  data : ℕ → ℕ → ℚ
  mask : ℕ → ℕ → Bool

/-- Modelled from the spec (section 4.4, Aggregator): the aggregation
denominator for one destination cell: the total weight of contributing
source cells that are not masked. -/
def destDen (c : SrcCtx) (ylo yhi xlo xhi : ℚ) : ℚ :=
  ∑ sy ∈ Finset.range c.ybs.length, ∑ sx ∈ Finset.range c.xbs.length,
    axisWeightAt c.ycirc c.yperiod c.ybs ylo yhi sy *
      axisWeightAt c.xcirc c.xperiod c.xbs xlo xhi sx *
      (if c.mask sy sx then 0 else 1)

/-- Modelled from the spec (section 4.4, Aggregator): the aggregation
numerator for one destination cell: the weighted sum of unmasked source
data values. -/
def destNum (c : SrcCtx) (ylo yhi xlo xhi : ℚ) : ℚ :=
  ∑ sy ∈ Finset.range c.ybs.length, ∑ sx ∈ Finset.range c.xbs.length,
    axisWeightAt c.ycirc c.yperiod c.ybs ylo yhi sy *
      axisWeightAt c.xcirc c.xperiod c.xbs xlo xhi sx *
      (if c.mask sy sx then 0 else c.data sy sx)

/-- Modelled from the spec (section 4.4): the destination cell value,
the weighted mean of the contributing unmasked source cells (the value
is left at an arbitrary placeholder, here zero, when the denominator
vanishes, since the cell is then masked). -/
def destVal (c : SrcCtx) (ylo yhi xlo xhi : ℚ) : ℚ :=
  destNum c ylo yhi xlo xhi / destDen c ylo yhi xlo xhi

/-- Modelled from the spec (section 4.4): the destination cell is
masked exactly when the aggregation denominator is zero, that is when
the cell is uncovered or every contributing source cell is masked. -/
def destMasked (c : SrcCtx) (ylo yhi xlo xhi : ℚ) : Bool :=
  decide (destDen c ylo yhi xlo xhi = 0)

/-- Helper: the normalized bounds list of an optional axis. -/
def axBounds (a : Option Axis) : List Bound :=
  normalizeBounds ((a.getD ⟨none, false, 0⟩).bounds.getD [])

/-- Helper: the circularity flag of an optional axis. -/
def axCirc (a : Option Axis) : Bool := (a.getD ⟨none, false, 0⟩).circular

/-- Helper: the period of an optional axis. -/
def axPeriod (a : Option Axis) : ℚ := (a.getD ⟨none, false, 0⟩).period

/-- Modelled from the spec (section 4.5, LocateSpatialDims): the source
data addressed logically as (y, x) regardless of the stored dimension
order. -/
def srcLogicalData (f : Field) (iy ix : ℕ) : ℚ :=
  if f.transposed then getD2 f.data ix iy else getD2 f.data iy ix

/-- Modelled from the spec (section 4.5, LocateSpatialDims): the source
mask addressed logically as (y, x) regardless of the stored dimension
order. -/
def srcLogicalMask (f : Field) (iy ix : ℕ) : Bool :=
  if f.transposed then getB2 f.mask ix iy else getB2 f.mask iy ix

/-- Modelled from the spec (sections 4.3 to 4.5): the source context
assembled by the orchestrator from a source field. -/
def srcCtx (src : Field) : SrcCtx :=
  { ybs := axBounds src.yAxis
    xbs := axBounds src.xAxis
    ycirc := axCirc src.yAxis
    yperiod := axPeriod src.yAxis
    xcirc := axCirc src.xAxis
    xperiod := axPeriod src.xAxis
    data := srcLogicalData src
    mask := srcLogicalMask src }

/-- Modelled from the spec (section 4.5, Assemble): the destination
field carries the destination grid coordinates, the source metadata
token and stored dimension order, and the aggregated data and mask laid
out in that stored order. -/
def resultField (src dest : Field) : Field :=
  let c := srcCtx src
  let dys := axBounds dest.yAxis
  let dxs := axBounds dest.xAxis
  let val : ℕ → ℕ → ℚ := fun iy ix =>
    destVal c (cellAt dys iy).1 (cellAt dys iy).2 (cellAt dxs ix).1 (cellAt dxs ix).2
  let msk : ℕ → ℕ → Bool := fun iy ix =>
    destMasked c (cellAt dys iy).1 (cellAt dys iy).2 (cellAt dxs ix).1 (cellAt dxs ix).2
  { xAxis := dest.xAxis
    yAxis := dest.yAxis
    refToken := src.refToken
    data := if src.transposed then buildMat dxs.length dys.length (fun ix iy => val iy ix)
            else buildMat dys.length dxs.length val
    mask := if src.transposed then buildMat dxs.length dys.length (fun ix iy => msk iy ix)
            else buildMat dys.length dxs.length msk
    transposed := src.transposed }

/-- Modelled from the spec (sections 4.5 and 6): the single public
operation of the engine.  Validation errors propagate unchanged and no
partial result is ever produced for an invalid input pair. -/
def regrid_area_weighted (src dest : Field) : Except RegridError Field :=
  match validate src dest with
  | .error e => .error e
  | .ok _ => .ok (resultField src dest)

/-- Helper: the data matrix of a successful regrid outcome. -/
def okData (e : Except RegridError Field) : List (List ℚ) :=
  match e with
  | .ok f => f.data
  | .error _ => []

/-- Helper: the mask matrix of a successful regrid outcome. -/
def okMask (e : Except RegridError Field) : List (List Bool) :=
  match e with
  | .ok f => f.mask
  | .error _ => []

end AreaWeightedRegrid

namespace AreaWeightedRegrid

lemma cellAt_cons_zero (b : Bound) (bs : List Bound) : cellAt (b :: bs) 0 = b := rfl

lemma cellAt_cons_succ (b : Bound) (bs : List Bound) (i : ℕ) :
    cellAt (b :: bs) (i + 1) = cellAt bs i := rfl

lemma isAscending_head {b : Bound} {bs : List Bound}
    (h : isAscending (b :: bs) = true) : b.1 < b.2 := by
  cases bs with
  | nil => simpa [isAscending] using h
  | cons b2 rest =>
    simp only [isAscending, Bool.and_eq_true, decide_eq_true_eq] at h
    exact h.1.1

lemma isAscending_link {b b2 : Bound} {rest : List Bound}
    (h : isAscending (b :: b2 :: rest) = true) : b.2 = b2.1 := by
  simp only [isAscending, Bool.and_eq_true, decide_eq_true_eq] at h
  exact h.1.2

lemma isAscending_tail {b : Bound} {bs : List Bound}
    (h : isAscending (b :: bs) = true) : isAscending bs = true := by
  cases bs with
  | nil => rfl
  | cons b2 rest =>
    simp only [isAscending, Bool.and_eq_true, decide_eq_true_eq] at h ⊢
    exact h.2

lemma asc_lo_lt_hi {bs : List Bound} (h : isAscending bs = true) :
    ∀ i < bs.length, (cellAt bs i).1 < (cellAt bs i).2 := by
  induction bs with
  | nil => intro i hi; simp at hi
  | cons b rest ih =>
    intro i hi
    cases i with
    | zero => exact isAscending_head h
    | succ i =>
      rw [cellAt_cons_succ]
      exact ih (isAscending_tail h) i (by simpa using hi)

lemma asc_head_hi_le {b : Bound} {bs : List Bound}
    (h : isAscending (b :: bs) = true) :
    ∀ j < bs.length, b.2 ≤ (cellAt bs j).1 := by
  induction bs generalizing b with
  | nil => intro j hj; simp at hj
  | cons b2 rest ih =>
    intro j hj
    cases j with
    | zero => exact le_of_eq (isAscending_link h)
    | succ j =>
      rw [cellAt_cons_succ]
      have h2 : isAscending (b2 :: rest) = true := isAscending_tail h
      have hb2 : b2.2 ≤ (cellAt rest j).1 := ih h2 j (by simpa using hj)
      have : b.2 = b2.1 := isAscending_link h
      have hlt : b2.1 < b2.2 := isAscending_head h2
      linarith

lemma asc_hi_le_lo {bs : List Bound} (h : isAscending bs = true) :
    ∀ i j, i < j → j < bs.length → (cellAt bs i).2 ≤ (cellAt bs j).1 := by
  induction bs with
  | nil => intro i j _ hj; simp at hj
  | cons b rest ih =>
    intro i j hij hj
    cases j with
    | zero => omega
    | succ j =>
      rw [cellAt_cons_succ]
      cases i with
      | zero => exact asc_head_hi_le h j (by simpa using hj)
      | succ i =>
        rw [cellAt_cons_succ]
        exact ih (isAscending_tail h) i j (by omega) (by simpa using hj)

lemma asc_lo_le_lo {bs : List Bound} (h : isAscending bs = true) :
    ∀ i j, i ≤ j → j < bs.length → (cellAt bs i).1 ≤ (cellAt bs j).1 := by
  intro i j hij hj
  rcases eq_or_lt_of_le hij with rfl | hlt
  · exact le_refl _
  · have h1 := asc_lo_lt_hi h i (lt_trans hlt hj)
    have h2 := asc_hi_le_lo h i j hlt hj
    linarith

lemma asc_hi_le_hi {bs : List Bound} (h : isAscending bs = true) :
    ∀ i j, i ≤ j → j < bs.length → (cellAt bs i).2 ≤ (cellAt bs j).2 := by
  intro i j hij hj
  rcases eq_or_lt_of_le hij with rfl | hlt
  · exact le_refl _
  · have h1 := asc_lo_lt_hi h j hj
    have h2 := asc_hi_le_lo h i j hlt hj
    linarith

lemma isDescending_head {b : Bound} {bs : List Bound}
    (h : isDescending (b :: bs) = true) : b.2 < b.1 := by
  cases bs with
  | nil => simpa [isDescending] using h
  | cons b2 rest =>
    simp only [isDescending, Bool.and_eq_true, decide_eq_true_eq] at h
    exact h.1.1

lemma asc_desc_nil {bs : List Bound} (ha : isAscending bs = true)
    (hd : isDescending bs = true) : bs = [] := by
  cases bs with
  | nil => rfl
  | cons b rest =>
    have h1 := isAscending_head ha
    have h2 := isDescending_head hd
    exact absurd (lt_trans h1 h2) (lt_irrefl _)

lemma normalizeBounds_of_ascending {bs : List Bound}
    (h : isAscending bs = true) : normalizeBounds bs = bs := by
  unfold normalizeBounds
  by_cases hd : isDescending bs = true
  · rw [asc_desc_nil h hd]
    simp
  · simp [hd]

lemma contiguousOk_of_ascending {bs : List Bound}
    (h : isAscending bs = true) : contiguousOk bs = true := by
  simp [contiguousOk, h]

lemma overlapLen_nonneg (dlo dhi slo shi : ℚ) : 0 ≤ overlapLen dlo dhi slo shi :=
  le_max_left _ _

lemma pointW_nonneg (p : ℚ) (b : Bound) : 0 ≤ pointW p b := by
  unfold pointW
  split <;> norm_num

lemma overlapLen_eq_zero_left {dlo dhi slo shi : ℚ} (h : shi ≤ dlo) :
    overlapLen dlo dhi slo shi = 0 := by
  unfold overlapLen
  have h1 : min dhi shi ≤ shi := min_le_right _ _
  have h2 : dlo ≤ max dlo slo := le_max_left _ _
  have : min dhi shi - max dlo slo ≤ 0 := by linarith
  exact max_eq_left this

lemma overlapLen_eq_zero_right {dlo dhi slo shi : ℚ} (h : dhi ≤ slo) :
    overlapLen dlo dhi slo shi = 0 := by
  unfold overlapLen
  have h1 : min dhi shi ≤ dhi := min_le_left _ _
  have h2 : slo ≤ max dlo slo := le_max_right _ _
  have : min dhi shi - max dlo slo ≤ 0 := by linarith
  exact max_eq_left this

lemma overlapLen_of_inside {dlo dhi slo shi : ℚ} (h1 : dlo ≤ slo) (h2 : shi ≤ dhi)
    (h3 : slo ≤ shi) : overlapLen dlo dhi slo shi = shi - slo := by
  unfold overlapLen
  rw [min_eq_right h2, max_eq_right h1]
  exact max_eq_right (by linarith)

lemma axisWeightAt_nonneg (circ : Bool) (period : ℚ) (bs : List Bound)
    {dlo dhi : ℚ} (hd : dlo < dhi) (j : ℕ) :
    0 ≤ axisWeightAt circ period bs dlo dhi j := by
  unfold axisWeightAt
  have hpos : 0 < dhi - dlo := by linarith
  cases circ with
  | false =>
    simp only [Bool.false_eq_true, if_false]
    split
    · exact pointW_nonneg _ _
    · exact div_nonneg (overlapLen_nonneg _ _ _ _) (le_of_lt hpos)
  | true =>
    simp only [if_true]
    split
    · exact pointW_nonneg _ _
    · split
      · exact div_nonneg (overlapLen_nonneg _ _ _ _) (le_of_lt hpos)
      · exact div_nonneg
          (add_nonneg (overlapLen_nonneg _ _ _ _) (overlapLen_nonneg _ _ _ _))
          (le_of_lt hpos)

lemma axisWeightAt_block (p : ℚ) {bs : List Bound} (h : isAscending bs = true)
    {a b : ℕ} (hab : a ≤ b) (hb : b < bs.length) {j : ℕ} (hj : j < bs.length) :
    axisWeightAt false p bs (cellAt bs a).1 (cellAt bs b).2 j =
      if a ≤ j ∧ j ≤ b then
        ((cellAt bs j).2 - (cellAt bs j).1) / ((cellAt bs b).2 - (cellAt bs a).1)
      else 0 := by
  have ha : a < bs.length := lt_of_le_of_lt hab hb
  have hlo : (cellAt bs a).1 < (cellAt bs a).2 := asc_lo_lt_hi h a ha
  have hhi : (cellAt bs a).2 ≤ (cellAt bs b).2 := asc_hi_le_hi h a b hab hb
  have hlt : (cellAt bs a).1 < (cellAt bs b).2 := lt_of_lt_of_le hlo hhi
  unfold axisWeightAt
  simp only [Bool.false_eq_true, if_false, if_neg (ne_of_lt hlt)]
  by_cases hcase : a ≤ j ∧ j ≤ b
  · rw [if_pos hcase]
    have h1 : (cellAt bs a).1 ≤ (cellAt bs j).1 := asc_lo_le_lo h a j hcase.1 hj
    have h2 : (cellAt bs j).2 ≤ (cellAt bs b).2 := asc_hi_le_hi h j b hcase.2 hb
    have h3 : (cellAt bs j).1 ≤ (cellAt bs j).2 := le_of_lt (asc_lo_lt_hi h j hj)
    rw [overlapLen_of_inside h1 h2 h3]
  · rw [if_neg hcase]
    rcases not_and_or.mp hcase with hja | hjb
    · have hja : j < a := by omega
      have : (cellAt bs j).2 ≤ (cellAt bs a).1 := asc_hi_le_lo h j a hja ha
      rw [overlapLen_eq_zero_left this, zero_div]
    · have hjb : b < j := by omega
      have : (cellAt bs b).2 ≤ (cellAt bs j).1 := asc_hi_le_lo h b j hjb hj
      rw [overlapLen_eq_zero_right this, zero_div]

lemma axisWeightAt_self (p : ℚ) {bs : List Bound} (h : isAscending bs = true)
    {i : ℕ} (hi : i < bs.length) {j : ℕ} (hj : j < bs.length) :
    axisWeightAt false p bs (cellAt bs i).1 (cellAt bs i).2 j =
      if j = i then 1 else 0 := by
  rw [axisWeightAt_block p h (le_refl i) hi hj]
  by_cases hji : j = i
  · subst hji
    rw [if_pos ⟨le_refl j, le_refl j⟩, if_pos rfl]
    have := asc_lo_lt_hi h j hj
    exact div_self (by linarith)
  · rw [if_neg (by omega), if_neg hji]

end AreaWeightedRegrid

namespace AreaWeightedRegrid

/-- Helper: a matrix stored as a row list is rectangular with r rows
and c columns. -/
def rect (m : List (List α)) (r c : ℕ) : Prop :=
  m.length = r ∧ ∀ row ∈ m, row.length = c

lemma getD_range_map {α : Type} (c : ℕ) (g : ℕ → α) (j : ℕ) (d : α) :
    (((List.range c).map g).getD j d) = if j < c then g j else d := by
  by_cases hj : j < c
  · rw [if_pos hj, List.getD_eq_getElem?_getD, List.getElem?_map,
      List.getElem?_range hj]
    rfl
  · rw [if_neg hj]
    apply List.getD_eq_default
    simpa using Nat.le_of_not_lt hj

lemma getD2_buildMat (r c : ℕ) (f : ℕ → ℕ → ℚ) (i j : ℕ) :
    getD2 (buildMat r c f) i j = if i < r ∧ j < c then f i j else 0 := by
  unfold getD2 buildMat
  rw [getD_range_map]
  by_cases hi : i < r
  · rw [if_pos hi, getD_range_map]
    by_cases hj : j < c
    · rw [if_pos hj, if_pos ⟨hi, hj⟩]
    · rw [if_neg hj, if_neg (by tauto)]
  · rw [if_neg hi, if_neg (by tauto)]
    simp

lemma getB2_buildMat (r c : ℕ) (f : ℕ → ℕ → Bool) (i j : ℕ) :
    getB2 (buildMat r c f) i j = if i < r ∧ j < c then f i j else false := by
  unfold getB2 buildMat
  rw [getD_range_map]
  by_cases hi : i < r
  · rw [if_pos hi, getD_range_map]
    by_cases hj : j < c
    · rw [if_pos hj, if_pos ⟨hi, hj⟩]
    · rw [if_neg hj, if_neg (by tauto)]
  · rw [if_neg hi, if_neg (by tauto)]
    simp

lemma buildMat_length (r c : ℕ) (f : ℕ → ℕ → α) : (buildMat r c f).length = r := by
  simp [buildMat]

lemma buildMat_congr {r c : ℕ} {f g : ℕ → ℕ → α}
    (h : ∀ i < r, ∀ j < c, f i j = g i j) : buildMat r c f = buildMat r c g := by
  unfold buildMat
  apply List.map_congr_left
  intro i hi
  apply List.map_congr_left
  intro j hj
  exact h i (List.mem_range.mp hi) j (List.mem_range.mp hj)

lemma buildMat_eq_self {m : List (List ℚ)} {r c : ℕ}
    (h1 : m.length = r) (h2 : ∀ row ∈ m, row.length = c) :
    buildMat r c (fun i j => getD2 m i j) = m := by
  apply List.ext_getElem
  · rw [buildMat_length, h1]
  · intro i hb hm
    rw [buildMat_length] at hb
    unfold buildMat
    rw [List.getElem_map, List.getElem_range]
    apply List.ext_getElem
    · rw [List.length_map, List.length_range]
      exact (h2 (m[i]) (List.getElem_mem hm)).symm
    · intro j hj hj2
      rw [List.getElem_map, List.getElem_range]
      show getD2 m i j = _
      unfold getD2
      rw [List.getD_eq_getElem m [] (by omega), List.getD_eq_getElem (m[i]) 0 hj2]

lemma buildMat_eq_self_bool {m : List (List Bool)} {r c : ℕ}
    (h1 : m.length = r) (h2 : ∀ row ∈ m, row.length = c) :
    buildMat r c (fun i j => getB2 m i j) = m := by
  apply List.ext_getElem
  · rw [buildMat_length, h1]
  · intro i hb hm
    rw [buildMat_length] at hb
    unfold buildMat
    rw [List.getElem_map, List.getElem_range]
    apply List.ext_getElem
    · rw [List.length_map, List.length_range]
      exact (h2 (m[i]) (List.getElem_mem hm)).symm
    · intro j hj hj2
      rw [List.getElem_map, List.getElem_range]
      show getB2 m i j = _
      unfold getB2
      rw [List.getD_eq_getElem m [] (by omega), List.getD_eq_getElem (m[i]) false hj2]

lemma validate_ok_of {src dest : Field} {sx sy dx dy : Axis}
    {bsx bsy bdx bdy : List Bound}
    (h1 : src.xAxis = some sx) (h2 : src.yAxis = some sy)
    (h3 : dest.xAxis = some dx) (h4 : dest.yAxis = some dy)
    (hb1 : sx.bounds = some bsx) (hb2 : sy.bounds = some bsy)
    (hb3 : dx.bounds = some bdx) (hb4 : dy.bounds = some bdy)
    (htok : src.refToken = dest.refToken)
    (hc1 : contiguousOk bsx = true) (hc2 : contiguousOk bsy = true)
    (hc3 : contiguousOk bdx = true) (hc4 : contiguousOk bdy = true) :
    validate src dest = .ok () := by
  unfold validate
  rw [h1, h2, h3, h4]
  simp [htok, hb1, hb2, hb3, hb4, hc1, hc2, hc3, hc4]

lemma regrid_eq_of_validate {src dest : Field} (h : validate src dest = .ok ()) :
    regrid_area_weighted src dest = .ok (resultField src dest) := by
  unfold regrid_area_weighted
  rw [h]

lemma sum2_delta {ny nx iy ix : ℕ} (hiy : iy < ny) (hix : ix < nx) (g : ℕ → ℕ → ℚ) :
    (∑ sy ∈ Finset.range ny, ∑ sx ∈ Finset.range nx,
      (if sy = iy then (1 : ℚ) else 0) * (if sx = ix then 1 else 0) * g sy sx) =
      g iy ix := by
  rw [Finset.sum_eq_single_of_mem iy (Finset.mem_range.mpr hiy)]
  · rw [Finset.sum_eq_single_of_mem ix (Finset.mem_range.mpr hix)]
    · simp
    · intro b _ hb
      simp [hb]
  · intro b _ hb
    simp [hb]

end AreaWeightedRegrid

namespace AreaWeightedRegrid

lemma getB2_false {m : List (List Bool)}
    (h : ∀ row ∈ m, ∀ b ∈ row, b = false) (i j : ℕ) : getB2 m i j = false := by
  unfold getB2
  by_cases hi : i < m.length
  · rw [List.getD_eq_getElem m [] hi]
    by_cases hj : j < (m[i]).length
    · rw [List.getD_eq_getElem (m[i]) false hj]
      exact h (m[i]) (List.getElem_mem hi) _ (List.getElem_mem hj)
    · exact List.getD_eq_default _ _ (Nat.le_of_not_lt hj)
  · rw [List.getD_eq_default _ _ (Nat.le_of_not_lt hi)]
    simp [List.getD]

lemma destDen_self {c : SrcCtx} (hy : isAscending c.ybs = true)
    (hx : isAscending c.xbs = true) (hyc : c.ycirc = false) (hxc : c.xcirc = false)
    (hm : ∀ sy sx, sy < c.ybs.length → sx < c.xbs.length → c.mask sy sx = false)
    {iy ix : ℕ} (hiy : iy < c.ybs.length) (hix : ix < c.xbs.length) :
    destDen c (cellAt c.ybs iy).1 (cellAt c.ybs iy).2
      (cellAt c.xbs ix).1 (cellAt c.xbs ix).2 = 1 := by
  unfold destDen
  have hstep : (∑ sy ∈ Finset.range c.ybs.length, ∑ sx ∈ Finset.range c.xbs.length,
      axisWeightAt c.ycirc c.yperiod c.ybs (cellAt c.ybs iy).1 (cellAt c.ybs iy).2 sy *
        axisWeightAt c.xcirc c.xperiod c.xbs (cellAt c.xbs ix).1 (cellAt c.xbs ix).2 sx *
        (if c.mask sy sx then 0 else 1)) =
      ∑ sy ∈ Finset.range c.ybs.length, ∑ sx ∈ Finset.range c.xbs.length,
        (if sy = iy then (1 : ℚ) else 0) * (if sx = ix then 1 else 0) * 1 := by
    apply Finset.sum_congr rfl
    intro sy hsy
    apply Finset.sum_congr rfl
    intro sx hsx
    rw [hyc, hxc,
      axisWeightAt_self c.yperiod hy hiy (Finset.mem_range.mp hsy),
      axisWeightAt_self c.xperiod hx hix (Finset.mem_range.mp hsx),
      hm sy sx (Finset.mem_range.mp hsy) (Finset.mem_range.mp hsx)]
    norm_num
  rw [hstep, sum2_delta hiy hix]

lemma destNum_self {c : SrcCtx} (hy : isAscending c.ybs = true)
    (hx : isAscending c.xbs = true) (hyc : c.ycirc = false) (hxc : c.xcirc = false)
    (hm : ∀ sy sx, sy < c.ybs.length → sx < c.xbs.length → c.mask sy sx = false)
    {iy ix : ℕ} (hiy : iy < c.ybs.length) (hix : ix < c.xbs.length) :
    destNum c (cellAt c.ybs iy).1 (cellAt c.ybs iy).2
      (cellAt c.xbs ix).1 (cellAt c.xbs ix).2 = c.data iy ix := by
  unfold destNum
  have hstep : (∑ sy ∈ Finset.range c.ybs.length, ∑ sx ∈ Finset.range c.xbs.length,
      axisWeightAt c.ycirc c.yperiod c.ybs (cellAt c.ybs iy).1 (cellAt c.ybs iy).2 sy *
        axisWeightAt c.xcirc c.xperiod c.xbs (cellAt c.xbs ix).1 (cellAt c.xbs ix).2 sx *
        (if c.mask sy sx then 0 else c.data sy sx)) =
      ∑ sy ∈ Finset.range c.ybs.length, ∑ sx ∈ Finset.range c.xbs.length,
        (if sy = iy then (1 : ℚ) else 0) * (if sx = ix then 1 else 0) * c.data sy sx := by
    apply Finset.sum_congr rfl
    intro sy hsy
    apply Finset.sum_congr rfl
    intro sx hsx
    rw [hyc, hxc,
      axisWeightAt_self c.yperiod hy hiy (Finset.mem_range.mp hsy),
      axisWeightAt_self c.xperiod hx hix (Finset.mem_range.mp hsx),
      hm sy sx (Finset.mem_range.mp hsy) (Finset.mem_range.mp hsx)]
    norm_num
  rw [hstep, sum2_delta hiy hix]

lemma destVal_cell {c : SrcCtx} (hy : isAscending c.ybs = true)
    (hx : isAscending c.xbs = true) (hyc : c.ycirc = false) (hxc : c.xcirc = false)
    (hm : ∀ sy sx, sy < c.ybs.length → sx < c.xbs.length → c.mask sy sx = false)
    (iy ix : ℕ) (hiy : iy < c.ybs.length) (hix : ix < c.xbs.length) :
    destVal c (cellAt c.ybs iy).1 (cellAt c.ybs iy).2
        (cellAt c.xbs ix).1 (cellAt c.xbs ix).2 = c.data iy ix ∧
      destMasked c (cellAt c.ybs iy).1 (cellAt c.ybs iy).2
        (cellAt c.xbs ix).1 (cellAt c.xbs ix).2 = false := by
  have hden := destDen_self hy hx hyc hxc hm hiy hix
  have hnum := destNum_self hy hx hyc hxc hm hiy hix
  constructor
  · unfold destVal
    rw [hden, hnum, div_one]
  · unfold destMasked
    rw [hden]
    norm_num

end AreaWeightedRegrid

namespace AreaWeightedRegrid

/-- Helper: assemble a field from its parts, with both coordinates
present. -/
def mkField (ax ay : Axis) (tok : ℕ) (dat : List (List ℚ))
    (msk : List (List Bool)) (tr : Bool) : Field :=
  ⟨some ax, some ay, tok, dat, msk, tr⟩

/-- Helper: the single-cell slice of a source grid at cell (i, j),
carrying the corresponding slice of the source data, as the tests build
with a scalar cube slice of the source. -/
def sliceField (bsx bsy : List Bound) (px py : ℚ) (tok : ℕ)
    (dat : List (List ℚ)) (i j : ℕ) : Field :=
  mkField ⟨some [cellAt bsx j], false, px⟩ ⟨some [cellAt bsy i], false, py⟩
    tok [[getD2 dat i j]] [[false]] false

lemma resultField_untransposed (src dest : Field) (h : src.transposed = false) :
    resultField src dest =
      { xAxis := dest.xAxis
        yAxis := dest.yAxis
        refToken := src.refToken
        data := buildMat (axBounds dest.yAxis).length (axBounds dest.xAxis).length
          (fun iy ix => destVal (srcCtx src)
            (cellAt (axBounds dest.yAxis) iy).1 (cellAt (axBounds dest.yAxis) iy).2
            (cellAt (axBounds dest.xAxis) ix).1 (cellAt (axBounds dest.xAxis) ix).2)
        mask := buildMat (axBounds dest.yAxis).length (axBounds dest.xAxis).length
          (fun iy ix => destMasked (srcCtx src)
            (cellAt (axBounds dest.yAxis) iy).1 (cellAt (axBounds dest.yAxis) iy).2
            (cellAt (axBounds dest.xAxis) ix).1 (cellAt (axBounds dest.xAxis) ix).2)
        transposed := false } := by
  unfold resultField
  rw [h]
  simp

lemma isAscending_singleton {b : Bound} (h : b.1 < b.2) : isAscending [b] = true := by
  simp [isAscending, h]

lemma destVal_cell_field (F : Field) (bsx bsy : List Bound)
    (hnx : axBounds F.xAxis = bsx) (hny : axBounds F.yAxis = bsy)
    (hcxa : axCirc F.xAxis = false) (hcya : axCirc F.yAxis = false)
    (hx : isAscending bsx = true) (hy : isAscending bsy = true)
    (hm : ∀ iy ix, srcLogicalMask F iy ix = false)
    {iy ix : ℕ} (hiy : iy < bsy.length) (hix : ix < bsx.length) :
    destVal (srcCtx F) (cellAt bsy iy).1 (cellAt bsy iy).2
        (cellAt bsx ix).1 (cellAt bsx ix).2 = srcLogicalData F iy ix ∧
      destMasked (srcCtx F) (cellAt bsy iy).1 (cellAt bsy iy).2
        (cellAt bsx ix).1 (cellAt bsx ix).2 = false := by
  have h1 : (srcCtx F).ybs = bsy := hny
  have h2 : (srcCtx F).xbs = bsx := hnx
  have h := destVal_cell (c := srcCtx F) (by rw [h1]; exact hy) (by rw [h2]; exact hx)
    hcya hcxa (fun sy sx _ _ => hm sy sx) iy ix
    (by rw [h1]; exact hiy) (by rw [h2]; exact hix)
  rw [h1, h2] at h
  exact h

end AreaWeightedRegrid

namespace AreaWeightedRegrid

lemma buildMat_one_one (f : ℕ → ℕ → α) : buildMat 1 1 f = [[f 0 0]] := by
  simp [buildMat, List.range_succ]

/-- Claim C1: for every valid source field (present X and Y coordinates
with contiguous ascending non-circular bounds, rectangular data with an
all-clear mask, canonical dimension order), regridding the source onto
its own grid returns a result whose data, mask and coordinates equal
the source exactly, and regridding onto the single-cell slice grid at
any cell (i, j) of the source grid returns exactly the corresponding
slice of the source. -/
theorem claim_C1_identity (ax ay : Axis) (bsx bsy : List Bound) (tok : ℕ)
    (dat : List (List ℚ)) (msk : List (List Bool))
    (hbx : ax.bounds = some bsx) (hby : ay.bounds = some bsy)
    (hcx : ax.circular = false) (hcy : ay.circular = false)
    (hx : isAscending bsx = true) (hy : isAscending bsy = true)
    (hd : rect dat bsy.length bsx.length)
    (hmr : rect msk bsy.length bsx.length)
    (hm : ∀ row ∈ msk, ∀ b ∈ row, b = false) :
    regrid_area_weighted (mkField ax ay tok dat msk false)
        (mkField ax ay tok dat msk false) = .ok (mkField ax ay tok dat msk false) ∧
      ∀ i < bsy.length, ∀ j < bsx.length,
        regrid_area_weighted (mkField ax ay tok dat msk false)
            (sliceField bsx bsy ax.period ay.period tok dat i j) =
          .ok (sliceField bsx bsy ax.period ay.period tok dat i j) := by
  have hnx : axBounds (mkField ax ay tok dat msk false).xAxis = bsx := by
    simp [mkField, axBounds, hbx, normalizeBounds_of_ascending hx]
  have hny : axBounds (mkField ax ay tok dat msk false).yAxis = bsy := by
    simp [mkField, axBounds, hby, normalizeBounds_of_ascending hy]
  have hcxa : axCirc (mkField ax ay tok dat msk false).xAxis = false := by
    simp [mkField, axCirc, hcx]
  have hcya : axCirc (mkField ax ay tok dat msk false).yAxis = false := by
    simp [mkField, axCirc, hcy]
  have hmF : ∀ iy ix, srcLogicalMask (mkField ax ay tok dat msk false) iy ix = false := by
    intro iy ix
    simp only [srcLogicalMask, mkField, Bool.false_eq_true, if_false]
    exact getB2_false hm iy ix
  have hdF : ∀ iy ix, srcLogicalData (mkField ax ay tok dat msk false) iy ix = getD2 dat iy ix := by
    intro iy ix
    simp only [srcLogicalData, mkField, Bool.false_eq_true, if_false]
  have hcongr : ∀ i < bsy.length, ∀ j < bsx.length,
      destVal (srcCtx (mkField ax ay tok dat msk false))
        (cellAt bsy i).1 (cellAt bsy i).2 (cellAt bsx j).1 (cellAt bsx j).2 =
        getD2 dat i j := by
    intro i hi j hj
    exact ((destVal_cell_field (mkField ax ay tok dat msk false) bsx bsy
      hnx hny hcxa hcya hx hy hmF hi hj).1).trans (hdF i j)
  have hmcongr : ∀ i < bsy.length, ∀ j < bsx.length,
      destMasked (srcCtx (mkField ax ay tok dat msk false))
        (cellAt bsy i).1 (cellAt bsy i).2 (cellAt bsx j).1 (cellAt bsx j).2 =
        getB2 msk i j := by
    intro i hi j hj
    exact ((destVal_cell_field (mkField ax ay tok dat msk false) bsx bsy
      hnx hny hcxa hcya hx hy hmF hi hj).2).trans (getB2_false hm i j).symm
  constructor
  · have hv : validate (mkField ax ay tok dat msk false) (mkField ax ay tok dat msk false) = .ok () :=
      validate_ok_of rfl rfl rfl rfl hbx hby hbx hby rfl
        (contiguousOk_of_ascending hx) (contiguousOk_of_ascending hy)
        (contiguousOk_of_ascending hx) (contiguousOk_of_ascending hy)
    rw [regrid_eq_of_validate hv, resultField_untransposed _ _ rfl, hny, hnx]
    congr 1
    simp only [mkField, Field.mk.injEq]
    refine ⟨trivial, trivial, trivial, ?_, ?_, trivial⟩
    · calc buildMat bsy.length bsx.length
            (fun iy ix => destVal (srcCtx (mkField ax ay tok dat msk false))
              (cellAt bsy iy).1 (cellAt bsy iy).2 (cellAt bsx ix).1 (cellAt bsx ix).2)
          = buildMat bsy.length bsx.length (fun iy ix => getD2 dat iy ix) :=
            buildMat_congr hcongr
        _ = dat := buildMat_eq_self hd.1 hd.2
    · calc buildMat bsy.length bsx.length
            (fun iy ix => destMasked (srcCtx (mkField ax ay tok dat msk false))
              (cellAt bsy iy).1 (cellAt bsy iy).2 (cellAt bsx ix).1 (cellAt bsx ix).2)
          = buildMat bsy.length bsx.length (fun iy ix => getB2 msk iy ix) :=
            buildMat_congr hmcongr
        _ = msk := buildMat_eq_self_bool hmr.1 hmr.2
  · intro i hi j hj
    have hsx : isAscending [cellAt bsx j] = true :=
      isAscending_singleton (asc_lo_lt_hi hx j hj)
    have hsy : isAscending [cellAt bsy i] = true :=
      isAscending_singleton (asc_lo_lt_hi hy i hi)
    have hv : validate (mkField ax ay tok dat msk false)
        (sliceField bsx bsy ax.period ay.period tok dat i j) = .ok () :=
      validate_ok_of rfl rfl rfl rfl hbx hby rfl rfl rfl
        (contiguousOk_of_ascending hx) (contiguousOk_of_ascending hy)
        (contiguousOk_of_ascending hsx) (contiguousOk_of_ascending hsy)
    have hdx : axBounds (sliceField bsx bsy ax.period ay.period tok dat i j).xAxis =
        [cellAt bsx j] := by
      simp [sliceField, mkField, axBounds, normalizeBounds_of_ascending hsx]
    have hdy : axBounds (sliceField bsx bsy ax.period ay.period tok dat i j).yAxis =
        [cellAt bsy i] := by
      simp [sliceField, mkField, axBounds, normalizeBounds_of_ascending hsy]
    rw [regrid_eq_of_validate hv, resultField_untransposed _ _ rfl, hdx, hdy]
    congr 1
    simp only [sliceField, mkField, Field.mk.injEq, List.length_singleton]
    refine ⟨trivial, trivial, trivial, ?_, ?_, trivial⟩
    · rw [buildMat_one_one]
      simp only [cellAt_cons_zero]
      exact congrArg (fun v => [[v]]) (hcongr i hi j hj)
    · rw [buildMat_one_one]
      simp only [cellAt_cons_zero]
      exact congrArg (fun v => [[v]]) ((destVal_cell_field (mkField ax ay tok dat msk false)
        bsx bsy hnx hny hcxa hcya hx hy hmF hi hj).2)

/-- Witness for claim C1 at a concrete 1-by-2 source grid. -/
theorem claim_C1_identity_witness :
    regrid_area_weighted
        (mkField ⟨some [((0 : ℚ), 1), (1, 2)], false, 0⟩ ⟨some [((0 : ℚ), 1)], false, 0⟩
          0 [[5, 7]] [[false, false]] false)
        (mkField ⟨some [((0 : ℚ), 1), (1, 2)], false, 0⟩ ⟨some [((0 : ℚ), 1)], false, 0⟩
          0 [[5, 7]] [[false, false]] false) =
      .ok (mkField ⟨some [((0 : ℚ), 1), (1, 2)], false, 0⟩ ⟨some [((0 : ℚ), 1)], false, 0⟩
          0 [[5, 7]] [[false, false]] false) ∧
    regrid_area_weighted
        (mkField ⟨some [((0 : ℚ), 1), (1, 2)], false, 0⟩ ⟨some [((0 : ℚ), 1)], false, 0⟩
          0 [[5, 7]] [[false, false]] false)
        (sliceField [((0 : ℚ), 1), (1, 2)] [((0 : ℚ), 1)] 0 0 0 [[5, 7]] 0 1) =
      .ok (sliceField [((0 : ℚ), 1), (1, 2)] [((0 : ℚ), 1)] 0 0 0 [[5, 7]] 0 1) := by
  have h := claim_C1_identity ⟨some [((0 : ℚ), 1), (1, 2)], false, 0⟩
    ⟨some [((0 : ℚ), 1)], false, 0⟩ [((0 : ℚ), 1), (1, 2)] [((0 : ℚ), 1)]
    0 [[5, 7]] [[false, false]] rfl rfl rfl rfl
    (by norm_num [isAscending]) (by norm_num [isAscending])
    (by constructor <;> decide) (by constructor <;> decide) (by decide)
  exact ⟨h.1, h.2 0 (by decide) 1 (by decide)⟩

end AreaWeightedRegrid

namespace AreaWeightedRegrid

lemma regrid_error_of_validate {src dest : Field} {e : RegridError}
    (h : validate src dest = .error e) :
    regrid_area_weighted src dest = .error e := by
  unfold regrid_area_weighted
  rw [h]

lemma validate_missingBounds {src dest : Field} {sx sy dx dy : Axis}
    (h1 : src.xAxis = some sx) (h2 : src.yAxis = some sy)
    (h3 : dest.xAxis = some dx) (h4 : dest.yAxis = some dy)
    (htok : src.refToken = dest.refToken)
    (hnb : sx.bounds = none ∨ sy.bounds = none ∨ dx.bounds = none ∨ dy.bounds = none) :
    validate src dest = .error .missingBounds := by
  unfold validate
  rw [h1, h2, h3, h4]
  dsimp only
  rw [if_neg (by simp [htok])]
  rcases hnb with h | h | h | h
  · rw [h]
  · rw [h]; cases sx.bounds <;> cases dx.bounds <;> cases dy.bounds <;> rfl
  · rw [h]; cases sx.bounds <;> cases sy.bounds <;> cases dy.bounds <;> rfl
  · rw [h]; cases sx.bounds <;> cases sy.bounds <;> cases dx.bounds <;> rfl

lemma validate_discontiguous {src dest : Field} {sx sy dx dy : Axis}
    {bsx bsy bdx bdy : List Bound}
    (h1 : src.xAxis = some sx) (h2 : src.yAxis = some sy)
    (h3 : dest.xAxis = some dx) (h4 : dest.yAxis = some dy)
    (hb1 : sx.bounds = some bsx) (hb2 : sy.bounds = some bsy)
    (hb3 : dx.bounds = some bdx) (hb4 : dy.bounds = some bdy)
    (htok : src.refToken = dest.refToken)
    (hcont : (contiguousOk bsx && contiguousOk bsy && contiguousOk bdx && contiguousOk bdy) = false) :
    validate src dest = .error .discontiguousBounds := by
  unfold validate
  rw [h1, h2, h3, h4]
  dsimp only
  rw [if_neg (by simp [htok]), hb1, hb2, hb3, hb4]
  simp [hcont]

lemma validate_badToken {src dest : Field} {sx sy dx dy : Axis}
    (h1 : src.xAxis = some sx) (h2 : src.yAxis = some sy)
    (h3 : dest.xAxis = some dx) (h4 : dest.yAxis = some dy)
    (htok : src.refToken ≠ dest.refToken) :
    validate src dest = .error .incompatibleReference := by
  unfold validate
  rw [h1, h2, h3, h4]
  dsimp only
  rw [if_pos htok]

lemma validate_missingCoord {src dest : Field}
    (h : src.xAxis = none ∨ src.yAxis = none ∨ dest.xAxis = none ∨ dest.yAxis = none) :
    validate src dest = .error .incompatibleReference := by
  unfold validate
  rcases h with h | h | h | h
  · rw [h]
  · rw [h]; cases src.xAxis <;> cases dest.xAxis <;> cases dest.yAxis <;> rfl
  · rw [h]; cases src.xAxis <;> cases src.yAxis <;> cases dest.yAxis <;> rfl
  · rw [h]; cases src.xAxis <;> cases src.yAxis <;> cases dest.xAxis <;> rfl

/-- Claim C4: for every input pair where a source or destination X or Y
coordinate lacks bounds, or some bounds list is non-contiguous, or the
two grids carry different reference tokens, or a required X or Y
coordinate is absent, the regrid returns the specific corresponding
error kind (missing bounds, discontiguous bounds, and incompatible
reference for both frame mismatch and absent coordinates) and never
returns a result. -/
theorem claim_C4_validation (src dest : Field) :
    (∀ sx sy dx dy : Axis, src.xAxis = some sx → src.yAxis = some sy →
      dest.xAxis = some dx → dest.yAxis = some dy →
      src.refToken = dest.refToken →
      (sx.bounds = none ∨ sy.bounds = none ∨ dx.bounds = none ∨ dy.bounds = none) →
      regrid_area_weighted src dest = .error .missingBounds) ∧
    (∀ (sx sy dx dy : Axis) (bsx bsy bdx bdy : List Bound),
      src.xAxis = some sx → src.yAxis = some sy →
      dest.xAxis = some dx → dest.yAxis = some dy →
      sx.bounds = some bsx → sy.bounds = some bsy →
      dx.bounds = some bdx → dy.bounds = some bdy →
      src.refToken = dest.refToken →
      (contiguousOk bsx && contiguousOk bsy && contiguousOk bdx && contiguousOk bdy) = false →
      regrid_area_weighted src dest = .error .discontiguousBounds) ∧
    (∀ sx sy dx dy : Axis, src.xAxis = some sx → src.yAxis = some sy →
      dest.xAxis = some dx → dest.yAxis = some dy →
      src.refToken ≠ dest.refToken →
      regrid_area_weighted src dest = .error .incompatibleReference) ∧
    ((src.xAxis = none ∨ src.yAxis = none ∨ dest.xAxis = none ∨ dest.yAxis = none) →
      regrid_area_weighted src dest = .error .incompatibleReference) := by
  refine ⟨?_, ?_, ?_, ?_⟩
  · intro sx sy dx dy h1 h2 h3 h4 htok hnb
    exact regrid_error_of_validate (validate_missingBounds h1 h2 h3 h4 htok hnb)
  · intro sx sy dx dy bsx bsy bdx bdy h1 h2 h3 h4 hb1 hb2 hb3 hb4 htok hcont
    exact regrid_error_of_validate
      (validate_discontiguous h1 h2 h3 h4 hb1 hb2 hb3 hb4 htok hcont)
  · intro sx sy dx dy h1 h2 h3 h4 htok
    exact regrid_error_of_validate (validate_badToken h1 h2 h3 h4 htok)
  · intro h
    exact regrid_error_of_validate (validate_missingCoord h)

/-- Witness for claim C4: concrete inputs exercising all four rejection
scenarios. -/
theorem claim_C4_validation_witness :
    regrid_area_weighted
        (mkField ⟨none, false, 0⟩ ⟨some [((0 : ℚ), 1)], false, 0⟩ 0 [[1]] [[false]] false)
        (mkField ⟨some [((0 : ℚ), 1)], false, 0⟩ ⟨some [((0 : ℚ), 1)], false, 0⟩ 0 [[1]] [[false]] false) =
      .error .missingBounds ∧
    regrid_area_weighted
        (mkField ⟨some [((0 : ℚ), 1), (2, 3)], false, 0⟩ ⟨some [((0 : ℚ), 1)], false, 0⟩ 0 [[1, 2]] [[false, false]] false)
        (mkField ⟨some [((0 : ℚ), 1), (2, 3)], false, 0⟩ ⟨some [((0 : ℚ), 1)], false, 0⟩ 0 [[1, 2]] [[false, false]] false) =
      .error .discontiguousBounds ∧
    regrid_area_weighted
        (mkField ⟨some [((0 : ℚ), 1)], false, 0⟩ ⟨some [((0 : ℚ), 1)], false, 0⟩ 0 [[1]] [[false]] false)
        (mkField ⟨some [((0 : ℚ), 1)], false, 0⟩ ⟨some [((0 : ℚ), 1)], false, 0⟩ 1 [[1]] [[false]] false) =
      .error .incompatibleReference ∧
    regrid_area_weighted
        ⟨none, some ⟨some [((0 : ℚ), 1)], false, 0⟩, 0, [[1]], [[false]], false⟩
        (mkField ⟨some [((0 : ℚ), 1)], false, 0⟩ ⟨some [((0 : ℚ), 1)], false, 0⟩ 0 [[1]] [[false]] false) =
      .error .incompatibleReference := by
  refine ⟨?_, ?_, ?_, ?_⟩
  · exact (claim_C4_validation _ _).1 _ _ _ _ rfl rfl rfl rfl rfl (Or.inl rfl)
  · exact (claim_C4_validation _ _).2.1 _ _ _ _ _ _ _ _ rfl rfl rfl rfl rfl rfl rfl rfl rfl
      (by norm_num [contiguousOk, isAscending, isDescending])
  · exact (claim_C4_validation _ _).2.2.1 _ _ _ _ rfl rfl rfl rfl (by decide)
  · exact (claim_C4_validation _ _).2.2.2 (Or.inl rfl)

end AreaWeightedRegrid

namespace AreaWeightedRegrid

lemma axisWeightAt_outside_high {bs : List Bound} (h : isAscending bs = true) (p : ℚ)
    {dlo dhi : ℚ} (hd : dlo < dhi) (hout : (cellAt bs (bs.length - 1)).2 ≤ dlo)
    {j : ℕ} (hj : j < bs.length) :
    axisWeightAt false p bs dlo dhi j = 0 := by
  have hhi : (cellAt bs j).2 ≤ (cellAt bs (bs.length - 1)).2 :=
    asc_hi_le_hi h j (bs.length - 1) (by omega) (by omega)
  unfold axisWeightAt
  simp only [Bool.false_eq_true, if_false, if_neg (ne_of_lt hd)]
  rw [overlapLen_eq_zero_left (by linarith), zero_div]

lemma axisWeightAt_outside_low {bs : List Bound} (h : isAscending bs = true) (p : ℚ)
    {dlo dhi : ℚ} (hd : dlo < dhi) (hout : dhi ≤ (cellAt bs 0).1)
    {j : ℕ} (hj : j < bs.length) :
    axisWeightAt false p bs dlo dhi j = 0 := by
  have hlo : (cellAt bs 0).1 ≤ (cellAt bs j).1 := asc_lo_le_lo h 0 j (by omega) hj
  unfold axisWeightAt
  simp only [Bool.false_eq_true, if_false, if_neg (ne_of_lt hd)]
  rw [overlapLen_eq_zero_right (by linarith), zero_div]

lemma regrid_entry (ax ay dxA dyA : Axis) (bsx bsy bdx bdy : List Bound) (tok : ℕ)
    (dat : List (List ℚ)) (msk : List (List Bool))
    (ddat : List (List ℚ)) (dmsk : List (List Bool)) (dtr : Bool)
    (hbx : ax.bounds = some bsx) (hby : ay.bounds = some bsy)
    (hdxb : dxA.bounds = some bdx) (hdyb : dyA.bounds = some bdy)
    (hx : isAscending bsx = true) (hy : isAscending bsy = true)
    (hdx : isAscending bdx = true) (hdy : isAscending bdy = true)
    (iy ix : ℕ) (hiy : iy < bdy.length) (hix : ix < bdx.length) :
    regrid_area_weighted (mkField ax ay tok dat msk false)
        (mkField dxA dyA tok ddat dmsk dtr) =
      .ok (resultField (mkField ax ay tok dat msk false)
        (mkField dxA dyA tok ddat dmsk dtr)) ∧
    getD2 (okData (regrid_area_weighted (mkField ax ay tok dat msk false)
        (mkField dxA dyA tok ddat dmsk dtr))) iy ix =
      destVal (srcCtx (mkField ax ay tok dat msk false))
        (cellAt bdy iy).1 (cellAt bdy iy).2 (cellAt bdx ix).1 (cellAt bdx ix).2 ∧
    getB2 (okMask (regrid_area_weighted (mkField ax ay tok dat msk false)
        (mkField dxA dyA tok ddat dmsk dtr))) iy ix =
      destMasked (srcCtx (mkField ax ay tok dat msk false))
        (cellAt bdy iy).1 (cellAt bdy iy).2 (cellAt bdx ix).1 (cellAt bdx ix).2 := by
  have hnxD : axBounds (mkField dxA dyA tok ddat dmsk dtr).xAxis = bdx := by
    simp [mkField, axBounds, hdxb, normalizeBounds_of_ascending hdx]
  have hnyD : axBounds (mkField dxA dyA tok ddat dmsk dtr).yAxis = bdy := by
    simp [mkField, axBounds, hdyb, normalizeBounds_of_ascending hdy]
  have hv : validate (mkField ax ay tok dat msk false)
      (mkField dxA dyA tok ddat dmsk dtr) = .ok () :=
    validate_ok_of rfl rfl rfl rfl hbx hby hdxb hdyb rfl
      (contiguousOk_of_ascending hx) (contiguousOk_of_ascending hy)
      (contiguousOk_of_ascending hdx) (contiguousOk_of_ascending hdy)
  refine ⟨regrid_eq_of_validate hv, ?_, ?_⟩
  · rw [regrid_eq_of_validate hv]
    simp only [okData]
    rw [resultField_untransposed _ _ rfl, hnxD, hnyD]
    dsimp only
    rw [getD2_buildMat, if_pos ⟨hiy, hix⟩]
  · rw [regrid_eq_of_validate hv]
    simp only [okMask]
    rw [resultField_untransposed _ _ rfl, hnxD, hnyD]
    dsimp only
    rw [getB2_buildMat, if_pos ⟨hiy, hix⟩]

/-- Claim C3: a destination cell is masked exactly when its aggregation
denominator (the total valid weight of its unmasked contributing source
cells) is zero; every destination cell whose denominator is nonzero
receives an unmasked weighted-mean value (including cells only
partially covered at the source domain edge); and if every destination
X cell lies entirely beyond the source X extent on a non-circular X
axis, every destination cell is masked. -/
theorem claim_C3_zero_weight_masking (ax ay dxA dyA : Axis)
    (bsx bsy bdx bdy : List Bound) (tok : ℕ)
    (dat : List (List ℚ)) (msk : List (List Bool))
    (ddat : List (List ℚ)) (dmsk : List (List Bool)) (dtr : Bool)
    (hbx : ax.bounds = some bsx) (hby : ay.bounds = some bsy)
    (hdxb : dxA.bounds = some bdx) (hdyb : dyA.bounds = some bdy)
    (hx : isAscending bsx = true) (hy : isAscending bsy = true)
    (hdx : isAscending bdx = true) (hdy : isAscending bdy = true) :
    (∀ iy < bdy.length, ∀ ix < bdx.length,
      (getB2 (okMask (regrid_area_weighted (mkField ax ay tok dat msk false)
          (mkField dxA dyA tok ddat dmsk dtr))) iy ix = true ↔
        destDen (srcCtx (mkField ax ay tok dat msk false))
          (cellAt bdy iy).1 (cellAt bdy iy).2 (cellAt bdx ix).1 (cellAt bdx ix).2 = 0)) ∧
    (∀ iy < bdy.length, ∀ ix < bdx.length,
      destDen (srcCtx (mkField ax ay tok dat msk false))
          (cellAt bdy iy).1 (cellAt bdy iy).2 (cellAt bdx ix).1 (cellAt bdx ix).2 ≠ 0 →
        getB2 (okMask (regrid_area_weighted (mkField ax ay tok dat msk false)
          (mkField dxA dyA tok ddat dmsk dtr))) iy ix = false ∧
        getD2 (okData (regrid_area_weighted (mkField ax ay tok dat msk false)
          (mkField dxA dyA tok ddat dmsk dtr))) iy ix =
          destNum (srcCtx (mkField ax ay tok dat msk false))
              (cellAt bdy iy).1 (cellAt bdy iy).2 (cellAt bdx ix).1 (cellAt bdx ix).2 /
            destDen (srcCtx (mkField ax ay tok dat msk false))
              (cellAt bdy iy).1 (cellAt bdy iy).2 (cellAt bdx ix).1 (cellAt bdx ix).2) ∧
    (ax.circular = false →
      ((∀ ix < bdx.length, (cellAt bsx (bsx.length - 1)).2 ≤ (cellAt bdx ix).1) ∨
        (∀ ix < bdx.length, (cellAt bdx ix).2 ≤ (cellAt bsx 0).1)) →
      ∀ iy < bdy.length, ∀ ix < bdx.length,
        getB2 (okMask (regrid_area_weighted (mkField ax ay tok dat msk false)
          (mkField dxA dyA tok ddat dmsk dtr))) iy ix = true) := by
  have hentry := fun {iy ix : ℕ} (hiy : iy < bdy.length) (hix : ix < bdx.length) =>
    regrid_entry ax ay dxA dyA bsx bsy bdx bdy tok dat msk ddat dmsk dtr
      hbx hby hdxb hdyb hx hy hdx hdy iy ix hiy hix
  have hxbs : (srcCtx (mkField ax ay tok dat msk false)).xbs = bsx := by
    simp [srcCtx, mkField, axBounds, hbx, normalizeBounds_of_ascending hx]
  refine ⟨?_, ?_, ?_⟩
  · intro iy hiy ix hix
    rw [(hentry hiy hix).2.2]
    unfold destMasked
    exact decide_eq_true_iff
  · intro iy hiy ix hix hne
    constructor
    · rw [(hentry hiy hix).2.2]
      unfold destMasked
      simpa using hne
    · rw [(hentry hiy hix).2.1]
      rfl
  · intro hxcirc hout iy hiy ix hix
    have hxcircF : (srcCtx (mkField ax ay tok dat msk false)).xcirc = false := by
      simp [srcCtx, mkField, axCirc, hxcirc]
    have hden : destDen (srcCtx (mkField ax ay tok dat msk false))
        (cellAt bdy iy).1 (cellAt bdy iy).2 (cellAt bdx ix).1 (cellAt bdx ix).2 = 0 := by
      unfold destDen
      apply Finset.sum_eq_zero
      intro sy hsy
      apply Finset.sum_eq_zero
      intro sx hsx
      have hsx2 : sx < bsx.length := by
        rw [hxbs] at hsx
        exact Finset.mem_range.mp hsx
      have hdcell : (cellAt bdx ix).1 < (cellAt bdx ix).2 := asc_lo_lt_hi hdx ix hix
      have hw : axisWeightAt (srcCtx (mkField ax ay tok dat msk false)).xcirc
          (srcCtx (mkField ax ay tok dat msk false)).xperiod
          (srcCtx (mkField ax ay tok dat msk false)).xbs
          (cellAt bdx ix).1 (cellAt bdx ix).2 sx = 0 := by
        rw [hxcircF, hxbs]
        rcases hout with hout | hout
        · exact axisWeightAt_outside_high hx _ hdcell (hout ix hix) hsx2
        · exact axisWeightAt_outside_low hx _ hdcell (hout ix hix) hsx2
      rw [hw]
      ring
    rw [(hentry hiy hix).2.2]
    unfold destMasked
    simp [hden]

/-- Witness for claim C3: a single-cell source grid with a destination
grid shifted entirely beyond the source X extent; the destination cell
is masked. -/
theorem claim_C3_zero_weight_masking_witness :
    getB2 (okMask (regrid_area_weighted
      (mkField ⟨some [((0 : ℚ), 1)], false, 0⟩ ⟨some [((0 : ℚ), 1)], false, 0⟩
        0 [[3]] [[false]] false)
      (mkField ⟨some [((2 : ℚ), 3)], false, 0⟩ ⟨some [((0 : ℚ), 1)], false, 0⟩
        0 [[0]] [[false]] false))) 0 0 = true := by
  have h := claim_C3_zero_weight_masking ⟨some [((0 : ℚ), 1)], false, 0⟩
    ⟨some [((0 : ℚ), 1)], false, 0⟩ ⟨some [((2 : ℚ), 3)], false, 0⟩
    ⟨some [((0 : ℚ), 1)], false, 0⟩ [((0 : ℚ), 1)] [((0 : ℚ), 1)]
    [((2 : ℚ), 3)] [((0 : ℚ), 1)] 0 [[3]] [[false]] [[0]] [[false]] false
    rfl rfl rfl rfl (by norm_num [isAscending]) (by norm_num [isAscending])
    (by norm_num [isAscending]) (by norm_num [isAscending])
  refine h.2.2 rfl (Or.inl ?_) 0 (by decide) 0 (by decide)
  intro ix hix
  simp only [List.length_singleton, Nat.lt_one_iff] at hix
  subst hix
  norm_num [cellAt]

end AreaWeightedRegrid

namespace AreaWeightedRegrid

lemma asc_link {bs : List Bound} (h : isAscending bs = true) :
    ∀ i, i + 1 < bs.length → (cellAt bs i).2 = (cellAt bs (i + 1)).1 := by
  induction bs with
  | nil => intro i hi; simp at hi
  | cons b rest ih =>
    intro i hi
    cases i with
    | zero =>
      cases rest with
      | nil => simp at hi
      | cons b2 rest2 => exact isAscending_link h
    | succ i =>
      rw [cellAt_cons_succ, cellAt_cons_succ]
      exact ih (isAscending_tail h) i (by simpa using hi)

lemma sum_widths {bs : List Bound} (h : isAscending bs = true) :
    ∀ a b, a ≤ b → b < bs.length →
      (∑ j ∈ Finset.Icc a b, ((cellAt bs j).2 - (cellAt bs j).1)) =
        (cellAt bs b).2 - (cellAt bs a).1 := by
  intro a b
  induction b with
  | zero =>
    intro hab _
    have ha : a = 0 := by omega
    subst ha
    simp
  | succ b ih =>
    intro hab hb
    rcases Nat.eq_or_lt_of_le hab with heq | hlt
    · subst heq
      simp
    · have hab2 : a ≤ b := by omega
      rw [Finset.sum_Icc_succ_top hab, ih hab2 (by omega),
        asc_link h b hb]
      ring

lemma ite_mul_ite_zero (P Q : Prop) [Decidable P] [Decidable Q] (A B D : ℚ) :
    (if P then A else 0) * (if Q then B else 0) * D =
      if P then (if Q then A * B * D else 0) else 0 := by
  split_ifs <;> ring

lemma sum_ite_const (P : Prop) [Decidable P] (s : Finset ℕ) (f : ℕ → ℚ) :
    (∑ x ∈ s, if P then f x else 0) = if P then ∑ x ∈ s, f x else 0 := by
  split_ifs <;> simp

lemma Icc_subset_range {a b n : ℕ} (hb : b < n) :
    Finset.Icc a b ⊆ Finset.range n := by
  intro x hx
  rw [Finset.mem_range]
  have := (Finset.mem_Icc.mp hx).2
  omega

lemma sum_block_weighted (c : SrcCtx) (hy : isAscending c.ybs = true)
    (hx : isAscending c.xbs = true) (hyc : c.ycirc = false) (hxc : c.xcirc = false)
    {a b cc dd : ℕ} (hab : a ≤ b) (hb : b < c.xbs.length)
    (hcd : cc ≤ dd) (hd : dd < c.ybs.length) (g : ℕ → ℕ → ℚ) :
    (∑ sy ∈ Finset.range c.ybs.length, ∑ sx ∈ Finset.range c.xbs.length,
      axisWeightAt c.ycirc c.yperiod c.ybs (cellAt c.ybs cc).1 (cellAt c.ybs dd).2 sy *
        axisWeightAt c.xcirc c.xperiod c.xbs (cellAt c.xbs a).1 (cellAt c.xbs b).2 sx *
        g sy sx) =
    ∑ sy ∈ Finset.Icc cc dd, ∑ sx ∈ Finset.Icc a b,
      (((cellAt c.ybs sy).2 - (cellAt c.ybs sy).1) /
          ((cellAt c.ybs dd).2 - (cellAt c.ybs cc).1)) *
        (((cellAt c.xbs sx).2 - (cellAt c.xbs sx).1) /
          ((cellAt c.xbs b).2 - (cellAt c.xbs a).1)) *
        g sy sx := by
  have hwy : ∀ sy ∈ Finset.range c.ybs.length,
      axisWeightAt c.ycirc c.yperiod c.ybs (cellAt c.ybs cc).1 (cellAt c.ybs dd).2 sy =
        if sy ∈ Finset.Icc cc dd then
          ((cellAt c.ybs sy).2 - (cellAt c.ybs sy).1) /
            ((cellAt c.ybs dd).2 - (cellAt c.ybs cc).1)
        else 0 := by
    intro sy hsy
    rw [hyc, axisWeightAt_block c.yperiod hy hcd hd (Finset.mem_range.mp hsy)]
    simp only [Finset.mem_Icc]
  have hwx : ∀ sx ∈ Finset.range c.xbs.length,
      axisWeightAt c.xcirc c.xperiod c.xbs (cellAt c.xbs a).1 (cellAt c.xbs b).2 sx =
        if sx ∈ Finset.Icc a b then
          ((cellAt c.xbs sx).2 - (cellAt c.xbs sx).1) /
            ((cellAt c.xbs b).2 - (cellAt c.xbs a).1)
        else 0 := by
    intro sx hsx
    rw [hxc, axisWeightAt_block c.xperiod hx hab hb (Finset.mem_range.mp hsx)]
    simp only [Finset.mem_Icc]
  calc (∑ sy ∈ Finset.range c.ybs.length, ∑ sx ∈ Finset.range c.xbs.length,
        axisWeightAt c.ycirc c.yperiod c.ybs (cellAt c.ybs cc).1 (cellAt c.ybs dd).2 sy *
          axisWeightAt c.xcirc c.xperiod c.xbs (cellAt c.xbs a).1 (cellAt c.xbs b).2 sx *
          g sy sx)
      = ∑ sy ∈ Finset.range c.ybs.length,
          (if sy ∈ Finset.Icc cc dd then
            (∑ sx ∈ Finset.range c.xbs.length,
              (if sx ∈ Finset.Icc a b then
                (((cellAt c.ybs sy).2 - (cellAt c.ybs sy).1) /
                    ((cellAt c.ybs dd).2 - (cellAt c.ybs cc).1)) *
                  (((cellAt c.xbs sx).2 - (cellAt c.xbs sx).1) /
                    ((cellAt c.xbs b).2 - (cellAt c.xbs a).1)) *
                  g sy sx
              else 0))
          else 0) := by
        apply Finset.sum_congr rfl
        intro sy hsy
        rw [← sum_ite_const]
        apply Finset.sum_congr rfl
        intro sx hsx
        rw [hwy sy hsy, hwx sx hsx, ite_mul_ite_zero]
    _ = ∑ sy ∈ Finset.range c.ybs.length ∩ Finset.Icc cc dd,
          ∑ sx ∈ Finset.range c.xbs.length,
            (if sx ∈ Finset.Icc a b then
              (((cellAt c.ybs sy).2 - (cellAt c.ybs sy).1) /
                  ((cellAt c.ybs dd).2 - (cellAt c.ybs cc).1)) *
                (((cellAt c.xbs sx).2 - (cellAt c.xbs sx).1) /
                  ((cellAt c.xbs b).2 - (cellAt c.xbs a).1)) *
                g sy sx
            else 0) := Finset.sum_ite_mem _ _ _
    _ = ∑ sy ∈ Finset.Icc cc dd, ∑ sx ∈ Finset.Icc a b,
          (((cellAt c.ybs sy).2 - (cellAt c.ybs sy).1) /
              ((cellAt c.ybs dd).2 - (cellAt c.ybs cc).1)) *
            (((cellAt c.xbs sx).2 - (cellAt c.xbs sx).1) /
              ((cellAt c.xbs b).2 - (cellAt c.xbs a).1)) *
            g sy sx := by
        rw [Finset.inter_eq_right.mpr (Icc_subset_range hd)]
        apply Finset.sum_congr rfl
        intro sy hsy
        rw [Finset.sum_ite_mem, Finset.inter_eq_right.mpr (Icc_subset_range hb)]

lemma block_width_pos {bs : List Bound} (h : isAscending bs = true)
    {a b : ℕ} (hab : a ≤ b) (hb : b < bs.length) :
    0 < (cellAt bs b).2 - (cellAt bs a).1 := by
  have h1 := asc_lo_lt_hi h a (lt_of_le_of_lt hab hb)
  have h2 := asc_hi_le_hi h a b hab hb
  linarith

lemma sum_block_fracs {bs : List Bound} (h : isAscending bs = true)
    {a b : ℕ} (hab : a ≤ b) (hb : b < bs.length) :
    (∑ j ∈ Finset.Icc a b,
      ((cellAt bs j).2 - (cellAt bs j).1) / ((cellAt bs b).2 - (cellAt bs a).1)) = 1 := by
  rw [← Finset.sum_div, sum_widths h a b hab hb]
  exact div_self (ne_of_gt (block_width_pos h hab hb))

lemma destDen_block {c : SrcCtx} (hy : isAscending c.ybs = true)
    (hx : isAscending c.xbs = true) (hyc : c.ycirc = false) (hxc : c.xcirc = false)
    (hm : ∀ sy sx, sy < c.ybs.length → sx < c.xbs.length → c.mask sy sx = false)
    {a b cc dd : ℕ} (hab : a ≤ b) (hb : b < c.xbs.length)
    (hcd : cc ≤ dd) (hd : dd < c.ybs.length) :
    destDen c (cellAt c.ybs cc).1 (cellAt c.ybs dd).2
      (cellAt c.xbs a).1 (cellAt c.xbs b).2 = 1 := by
  unfold destDen
  have hone : (∑ sy ∈ Finset.range c.ybs.length, ∑ sx ∈ Finset.range c.xbs.length,
      axisWeightAt c.ycirc c.yperiod c.ybs (cellAt c.ybs cc).1 (cellAt c.ybs dd).2 sy *
        axisWeightAt c.xcirc c.xperiod c.xbs (cellAt c.xbs a).1 (cellAt c.xbs b).2 sx *
        (if c.mask sy sx then 0 else 1)) =
      ∑ sy ∈ Finset.range c.ybs.length, ∑ sx ∈ Finset.range c.xbs.length,
        axisWeightAt c.ycirc c.yperiod c.ybs (cellAt c.ybs cc).1 (cellAt c.ybs dd).2 sy *
          axisWeightAt c.xcirc c.xperiod c.xbs (cellAt c.xbs a).1 (cellAt c.xbs b).2 sx *
          (1 : ℚ) := by
    apply Finset.sum_congr rfl
    intro sy hsy
    apply Finset.sum_congr rfl
    intro sx hsx
    rw [hm sy sx (Finset.mem_range.mp hsy) (Finset.mem_range.mp hsx)]
    norm_num
  rw [hone, sum_block_weighted c hy hx hyc hxc hab hb hcd hd (fun _ _ => 1)]
  have : (∑ sy ∈ Finset.Icc cc dd, ∑ sx ∈ Finset.Icc a b,
      (((cellAt c.ybs sy).2 - (cellAt c.ybs sy).1) /
          ((cellAt c.ybs dd).2 - (cellAt c.ybs cc).1)) *
        (((cellAt c.xbs sx).2 - (cellAt c.xbs sx).1) /
          ((cellAt c.xbs b).2 - (cellAt c.xbs a).1)) * (1 : ℚ)) =
      (∑ sy ∈ Finset.Icc cc dd,
        ((cellAt c.ybs sy).2 - (cellAt c.ybs sy).1) /
          ((cellAt c.ybs dd).2 - (cellAt c.ybs cc).1)) *
      (∑ sx ∈ Finset.Icc a b,
        ((cellAt c.xbs sx).2 - (cellAt c.xbs sx).1) /
          ((cellAt c.xbs b).2 - (cellAt c.xbs a).1)) := by
    rw [Finset.sum_mul_sum]
    apply Finset.sum_congr rfl
    intro sy _
    apply Finset.sum_congr rfl
    intro sx _
    ring
  rw [this, sum_block_fracs hy hcd hd, sum_block_fracs hx hab hb]
  norm_num

lemma destNum_block {c : SrcCtx} (hy : isAscending c.ybs = true)
    (hx : isAscending c.xbs = true) (hyc : c.ycirc = false) (hxc : c.xcirc = false)
    (hm : ∀ sy sx, sy < c.ybs.length → sx < c.xbs.length → c.mask sy sx = false)
    {a b cc dd : ℕ} (hab : a ≤ b) (hb : b < c.xbs.length)
    (hcd : cc ≤ dd) (hd : dd < c.ybs.length) :
    destNum c (cellAt c.ybs cc).1 (cellAt c.ybs dd).2
      (cellAt c.xbs a).1 (cellAt c.xbs b).2 =
      ∑ sy ∈ Finset.Icc cc dd, ∑ sx ∈ Finset.Icc a b,
        (((cellAt c.ybs sy).2 - (cellAt c.ybs sy).1) /
            ((cellAt c.ybs dd).2 - (cellAt c.ybs cc).1)) *
          (((cellAt c.xbs sx).2 - (cellAt c.xbs sx).1) /
            ((cellAt c.xbs b).2 - (cellAt c.xbs a).1)) *
          c.data sy sx := by
  unfold destNum
  have hone : (∑ sy ∈ Finset.range c.ybs.length, ∑ sx ∈ Finset.range c.xbs.length,
      axisWeightAt c.ycirc c.yperiod c.ybs (cellAt c.ybs cc).1 (cellAt c.ybs dd).2 sy *
        axisWeightAt c.xcirc c.xperiod c.xbs (cellAt c.xbs a).1 (cellAt c.xbs b).2 sx *
        (if c.mask sy sx then 0 else c.data sy sx)) =
      ∑ sy ∈ Finset.range c.ybs.length, ∑ sx ∈ Finset.range c.xbs.length,
        axisWeightAt c.ycirc c.yperiod c.ybs (cellAt c.ybs cc).1 (cellAt c.ybs dd).2 sy *
          axisWeightAt c.xcirc c.xperiod c.xbs (cellAt c.xbs a).1 (cellAt c.xbs b).2 sx *
          c.data sy sx := by
    apply Finset.sum_congr rfl
    intro sy hsy
    apply Finset.sum_congr rfl
    intro sx hsx
    rw [hm sy sx (Finset.mem_range.mp hsy) (Finset.mem_range.mp hsx)]
    norm_num
  rw [hone, sum_block_weighted c hy hx hyc hxc hab hb hcd hd c.data]

lemma destVal_block {c : SrcCtx} (hy : isAscending c.ybs = true)
    (hx : isAscending c.xbs = true) (hyc : c.ycirc = false) (hxc : c.xcirc = false)
    (hm : ∀ sy sx, sy < c.ybs.length → sx < c.xbs.length → c.mask sy sx = false)
    (a b cc dd : ℕ) (hab : a ≤ b) (hb : b < c.xbs.length)
    (hcd : cc ≤ dd) (hd : dd < c.ybs.length) :
    destVal c (cellAt c.ybs cc).1 (cellAt c.ybs dd).2
        (cellAt c.xbs a).1 (cellAt c.xbs b).2 =
      (∑ sy ∈ Finset.Icc cc dd, ∑ sx ∈ Finset.Icc a b,
        (((cellAt c.ybs sy).2 - (cellAt c.ybs sy).1) /
            ((cellAt c.ybs dd).2 - (cellAt c.ybs cc).1)) *
          (((cellAt c.xbs sx).2 - (cellAt c.xbs sx).1) /
            ((cellAt c.xbs b).2 - (cellAt c.xbs a).1)) *
          c.data sy sx) ∧
      destMasked c (cellAt c.ybs cc).1 (cellAt c.ybs dd).2
        (cellAt c.xbs a).1 (cellAt c.xbs b).2 = false := by
  have hden := destDen_block hy hx hyc hxc hm hab hb hcd hd
  constructor
  · unfold destVal
    rw [hden, div_one, destNum_block hy hx hyc hxc hm hab hb hcd hd]
  · unfold destMasked
    rw [hden]
    norm_num

lemma destVal_block_field (F : Field) (bsx bsy : List Bound)
    (hnx : axBounds F.xAxis = bsx) (hny : axBounds F.yAxis = bsy)
    (hcxa : axCirc F.xAxis = false) (hcya : axCirc F.yAxis = false)
    (hx : isAscending bsx = true) (hy : isAscending bsy = true)
    (hm : ∀ iy ix, srcLogicalMask F iy ix = false)
    (a b cc dd : ℕ) (hab : a ≤ b) (hb : b < bsx.length)
    (hcd : cc ≤ dd) (hd : dd < bsy.length) :
    destVal (srcCtx F) (cellAt bsy cc).1 (cellAt bsy dd).2
        (cellAt bsx a).1 (cellAt bsx b).2 =
      (∑ sy ∈ Finset.Icc cc dd, ∑ sx ∈ Finset.Icc a b,
        (((cellAt bsy sy).2 - (cellAt bsy sy).1) /
            ((cellAt bsy dd).2 - (cellAt bsy cc).1)) *
          (((cellAt bsx sx).2 - (cellAt bsx sx).1) /
            ((cellAt bsx b).2 - (cellAt bsx a).1)) *
          srcLogicalData F sy sx) ∧
      destMasked (srcCtx F) (cellAt bsy cc).1 (cellAt bsy dd).2
        (cellAt bsx a).1 (cellAt bsx b).2 = false := by
  have h1 : (srcCtx F).ybs = bsy := hny
  have h2 : (srcCtx F).xbs = bsx := hnx
  have h := destVal_block (c := srcCtx F) (by rw [h1]; exact hy) (by rw [h2]; exact hx)
    hcya hcxa (fun sy sx _ _ => hm sy sx) a b cc dd
    hab (by rw [h2]; exact hb) hcd (by rw [h1]; exact hd)
  rw [h1, h2] at h
  exact h

end AreaWeightedRegrid

namespace AreaWeightedRegrid

lemma sum_Icc_zero_one (f : ℕ → ℚ) : (∑ j ∈ Finset.Icc 0 1, f j) = f 0 + f 1 := by
  rw [Finset.sum_Icc_succ_top (by norm_num), Finset.Icc_self, Finset.sum_singleton]

/-- Claim C6: a 2-by-2 source whose X cells span 1 and 3 units and
whose Y cells span 1 and 2 units, merged into one destination cell
covering them all, produces the area-weighted mean with fractions
1/12, 3/12, 2/12 and 6/12 (each source cell area over the destination
area), which sum to one; for the sample data 1, 2, 3, 4 this value
differs from the arithmetic mean. -/
theorem claim_C6_unequal_area (d00 d01 d10 d11 : ℚ) :
    (getD2 (okData (regrid_area_weighted
      (mkField ⟨some [((-1 : ℚ), 0), (0, 3)], false, 0⟩
        ⟨some [((-1 : ℚ), 0), (0, 2)], false, 0⟩
        0 [[d00, d01], [d10, d11]] [[false, false], [false, false]] false)
      (mkField ⟨some [((-1 : ℚ), 3)], false, 0⟩ ⟨some [((-1 : ℚ), 2)], false, 0⟩
        0 [[0]] [[false]] false))) 0 0 =
      (1 / 12) * d00 + (3 / 12) * d01 + (2 / 12) * d10 + (6 / 12) * d11) ∧
    ((1 : ℚ) / 12) + 3 / 12 + 2 / 12 + 6 / 12 = 1 ∧
    (1 / 12) * (1 : ℚ) + (3 / 12) * 2 + (2 / 12) * 3 + (6 / 12) * 4 ≠
      ((1 : ℚ) + 2 + 3 + 4) / 4 := by
  have haX : isAscending [((-1 : ℚ), 0), (0, 3)] = true := by
    norm_num [isAscending]
  have haY : isAscending [((-1 : ℚ), 0), (0, 2)] = true := by
    norm_num [isAscending]
  have haDX : isAscending [((-1 : ℚ), 3)] = true := by norm_num [isAscending]
  have haDY : isAscending [((-1 : ℚ), 2)] = true := by norm_num [isAscending]
  refine ⟨?_, by norm_num, by norm_num⟩
  have hent := (regrid_entry ⟨some [((-1 : ℚ), 0), (0, 3)], false, 0⟩
    ⟨some [((-1 : ℚ), 0), (0, 2)], false, 0⟩
    ⟨some [((-1 : ℚ), 3)], false, 0⟩ ⟨some [((-1 : ℚ), 2)], false, 0⟩
    [((-1 : ℚ), 0), (0, 3)] [((-1 : ℚ), 0), (0, 2)]
    [((-1 : ℚ), 3)] [((-1 : ℚ), 2)] 0
    [[d00, d01], [d10, d11]] [[false, false], [false, false]]
    [[0]] [[false]] false
    rfl rfl rfl rfl haX haY haDX haDY
    0 0 (by norm_num) (by norm_num)).2.1
  rw [hent]
  have hnx : axBounds (mkField ⟨some [((-1 : ℚ), 0), (0, 3)], false, 0⟩
      ⟨some [((-1 : ℚ), 0), (0, 2)], false, 0⟩
      0 [[d00, d01], [d10, d11]] [[false, false], [false, false]] false).xAxis =
      [((-1 : ℚ), 0), (0, 3)] := by
    simp [mkField, axBounds, normalizeBounds_of_ascending haX]
  have hny : axBounds (mkField ⟨some [((-1 : ℚ), 0), (0, 3)], false, 0⟩
      ⟨some [((-1 : ℚ), 0), (0, 2)], false, 0⟩
      0 [[d00, d01], [d10, d11]] [[false, false], [false, false]] false).yAxis =
      [((-1 : ℚ), 0), (0, 2)] := by
    simp [mkField, axBounds, normalizeBounds_of_ascending haY]
  have hm : ∀ iy ix, srcLogicalMask (mkField ⟨some [((-1 : ℚ), 0), (0, 3)], false, 0⟩
      ⟨some [((-1 : ℚ), 0), (0, 2)], false, 0⟩
      0 [[d00, d01], [d10, d11]] [[false, false], [false, false]] false) iy ix = false := by
    intro iy ix
    simp only [srcLogicalMask, mkField, Bool.false_eq_true, if_false]
    exact getB2_false (by decide) iy ix
  have hblk := (destVal_block_field (mkField ⟨some [((-1 : ℚ), 0), (0, 3)], false, 0⟩
    ⟨some [((-1 : ℚ), 0), (0, 2)], false, 0⟩
    0 [[d00, d01], [d10, d11]] [[false, false], [false, false]] false)
    [((-1 : ℚ), 0), (0, 3)] [((-1 : ℚ), 0), (0, 2)] hnx hny rfl rfl haX haY hm
    0 1 0 1
    (by norm_num) (by norm_num) (by norm_num) (by norm_num)).1
  rw [sum_Icc_zero_one] at hblk
  simp only [sum_Icc_zero_one] at hblk
  norm_num [cellAt] at hblk ⊢
  rw [hblk]
  have hd00 : srcLogicalData (mkField ⟨some [((-1 : ℚ), 0), (0, 3)], false, 0⟩
      ⟨some [((-1 : ℚ), 0), (0, 2)], false, 0⟩
      0 [[d00, d01], [d10, d11]] [[false, false], [false, false]] false) 0 0 = d00 := by
    simp [srcLogicalData, mkField, getD2, List.getD]
  have hd01 : srcLogicalData (mkField ⟨some [((-1 : ℚ), 0), (0, 3)], false, 0⟩
      ⟨some [((-1 : ℚ), 0), (0, 2)], false, 0⟩
      0 [[d00, d01], [d10, d11]] [[false, false], [false, false]] false) 0 1 = d01 := by
    simp [srcLogicalData, mkField, getD2, List.getD]
  have hd10 : srcLogicalData (mkField ⟨some [((-1 : ℚ), 0), (0, 3)], false, 0⟩
      ⟨some [((-1 : ℚ), 0), (0, 2)], false, 0⟩
      0 [[d00, d01], [d10, d11]] [[false, false], [false, false]] false) 1 0 = d10 := by
    simp [srcLogicalData, mkField, getD2, List.getD]
  have hd11 : srcLogicalData (mkField ⟨some [((-1 : ℚ), 0), (0, 3)], false, 0⟩
      ⟨some [((-1 : ℚ), 0), (0, 2)], false, 0⟩
      0 [[d00, d01], [d10, d11]] [[false, false], [false, false]] false) 1 1 = d11 := by
    simp [srcLogicalData, mkField, getD2, List.getD]
  rw [hd00, hd01, hd10, hd11]
  ring

end AreaWeightedRegrid

namespace AreaWeightedRegrid

/-- Claim C2 (amended): when every destination cell is exactly aligned
with a block of source cells (exact partition, no remainder), each
destination value is the area-weighted mean of the merged source cells
(the weight of each source cell being its extent fraction of the
destination cell), and no destination cell is masked.  For merged
cells of equal area this is the arithmetic mean, as in the 3-by-4 to
1-by-1 and two-cells-along-X instances of the witness. -/
theorem claim_C2_conservation (ax ay dxA dyA : Axis)
    (bsx bsy bdx bdy : List Bound) (tok : ℕ)
    (dat : List (List ℚ)) (msk : List (List Bool))
    (ddat : List (List ℚ)) (dmsk : List (List Bool)) (dtr : Bool)
    (hbx : ax.bounds = some bsx) (hby : ay.bounds = some bsy)
    (hdxb : dxA.bounds = some bdx) (hdyb : dyA.bounds = some bdy)
    (hcx : ax.circular = false) (hcy : ay.circular = false)
    (hx : isAscending bsx = true) (hy : isAscending bsy = true)
    (hdx : isAscending bdx = true) (hdy : isAscending bdy = true)
    (hm : ∀ row ∈ msk, ∀ b ∈ row, b = false)
    (A B CC DD : ℕ → ℕ)
    (hXal : ∀ ix < bdx.length, A ix ≤ B ix ∧ B ix < bsx.length ∧
      (cellAt bdx ix).1 = (cellAt bsx (A ix)).1 ∧
      (cellAt bdx ix).2 = (cellAt bsx (B ix)).2)
    (hYal : ∀ iy < bdy.length, CC iy ≤ DD iy ∧ DD iy < bsy.length ∧
      (cellAt bdy iy).1 = (cellAt bsy (CC iy)).1 ∧
      (cellAt bdy iy).2 = (cellAt bsy (DD iy)).2) :
    ∀ iy < bdy.length, ∀ ix < bdx.length,
      getD2 (okData (regrid_area_weighted (mkField ax ay tok dat msk false)
          (mkField dxA dyA tok ddat dmsk dtr))) iy ix =
        (∑ sy ∈ Finset.Icc (CC iy) (DD iy), ∑ sx ∈ Finset.Icc (A ix) (B ix),
          (((cellAt bsy sy).2 - (cellAt bsy sy).1) /
              ((cellAt bsy (DD iy)).2 - (cellAt bsy (CC iy)).1)) *
            (((cellAt bsx sx).2 - (cellAt bsx sx).1) /
              ((cellAt bsx (B ix)).2 - (cellAt bsx (A ix)).1)) *
            getD2 dat sy sx) ∧
      getB2 (okMask (regrid_area_weighted (mkField ax ay tok dat msk false)
          (mkField dxA dyA tok ddat dmsk dtr))) iy ix = false := by
  intro iy hiy ix hix
  have hent := regrid_entry ax ay dxA dyA bsx bsy bdx bdy tok dat msk ddat dmsk dtr
    hbx hby hdxb hdyb hx hy hdx hdy iy ix hiy hix
  have hnx : axBounds (mkField ax ay tok dat msk false).xAxis = bsx := by
    simp [mkField, axBounds, hbx, normalizeBounds_of_ascending hx]
  have hny : axBounds (mkField ax ay tok dat msk false).yAxis = bsy := by
    simp [mkField, axBounds, hby, normalizeBounds_of_ascending hy]
  have hcxa : axCirc (mkField ax ay tok dat msk false).xAxis = false := by
    simp [mkField, axCirc, hcx]
  have hcya : axCirc (mkField ax ay tok dat msk false).yAxis = false := by
    simp [mkField, axCirc, hcy]
  have hmF : ∀ iy2 ix2, srcLogicalMask (mkField ax ay tok dat msk false) iy2 ix2 = false := by
    intro iy2 ix2
    simp only [srcLogicalMask, mkField, Bool.false_eq_true, if_false]
    exact getB2_false hm iy2 ix2
  have hdataF : srcLogicalData (mkField ax ay tok dat msk false) = fun a b => getD2 dat a b := by
    funext a b
    simp [srcLogicalData, mkField]
  obtain ⟨hA1, hA2, hA3, hA4⟩ := hXal ix hix
  obtain ⟨hC1, hC2, hC3, hC4⟩ := hYal iy hiy
  have hblk := destVal_block_field (mkField ax ay tok dat msk false) bsx bsy
    hnx hny hcxa hcya hx hy hmF (A ix) (B ix) (CC iy) (DD iy) hA1 hA2 hC1 hC2
  constructor
  · rw [hent.2.1, hC3, hC4, hA3, hA4, hblk.1, hdataF]
  · rw [hent.2.2, hC3, hC4, hA3, hA4, hblk.2]

/-- Counterexample for claim C2 as stated: a source whose two X cells
have widths 1 and 3 with values 0 and 4, exactly partitioned by one
destination cell, yields the area-weighted mean 3, not the arithmetic
mean 2 of the merged source cells. -/
theorem claim_C2_counterexample :
    getD2 (okData (regrid_area_weighted
      (mkField ⟨some [((0 : ℚ), 1), (1, 4)], false, 0⟩ ⟨some [((0 : ℚ), 1)], false, 0⟩
        0 [[0, 4]] [[false, false]] false)
      (mkField ⟨some [((0 : ℚ), 4)], false, 0⟩ ⟨some [((0 : ℚ), 1)], false, 0⟩
        0 [[0]] [[false]] false))) 0 0 = 3 ∧
    (getD2 [[(0 : ℚ), 4]] 0 0 + getD2 [[(0 : ℚ), 4]] 0 1) / 2 = 2 ∧
    (3 : ℚ) ≠ 2 := by
  have haX : isAscending [((0 : ℚ), 1), (1, 4)] = true := by norm_num [isAscending]
  have haY : isAscending [((0 : ℚ), 1)] = true := by norm_num [isAscending]
  have haDX : isAscending [((0 : ℚ), 4)] = true := by norm_num [isAscending]
  refine ⟨?_, by norm_num [getD2, List.getD], by norm_num⟩
  have hent := (regrid_entry ⟨some [((0 : ℚ), 1), (1, 4)], false, 0⟩
    ⟨some [((0 : ℚ), 1)], false, 0⟩
    ⟨some [((0 : ℚ), 4)], false, 0⟩ ⟨some [((0 : ℚ), 1)], false, 0⟩
    [((0 : ℚ), 1), (1, 4)] [((0 : ℚ), 1)] [((0 : ℚ), 4)] [((0 : ℚ), 1)] 0
    [[0, 4]] [[false, false]] [[0]] [[false]] false
    rfl rfl rfl rfl haX haY haDX haY
    0 0 (by norm_num) (by norm_num)).2.1
  rw [hent]
  have hnx : axBounds (mkField ⟨some [((0 : ℚ), 1), (1, 4)], false, 0⟩
      ⟨some [((0 : ℚ), 1)], false, 0⟩ 0 [[0, 4]] [[false, false]] false).xAxis =
      [((0 : ℚ), 1), (1, 4)] := by
    simp [mkField, axBounds, normalizeBounds_of_ascending haX]
  have hny : axBounds (mkField ⟨some [((0 : ℚ), 1), (1, 4)], false, 0⟩
      ⟨some [((0 : ℚ), 1)], false, 0⟩ 0 [[0, 4]] [[false, false]] false).yAxis =
      [((0 : ℚ), 1)] := by
    simp [mkField, axBounds, normalizeBounds_of_ascending haY]
  have hm : ∀ iy ix, srcLogicalMask (mkField ⟨some [((0 : ℚ), 1), (1, 4)], false, 0⟩
      ⟨some [((0 : ℚ), 1)], false, 0⟩ 0 [[0, 4]] [[false, false]] false) iy ix = false := by
    intro iy ix
    simp only [srcLogicalMask, mkField, Bool.false_eq_true, if_false]
    exact getB2_false (by decide) iy ix
  have hblk := (destVal_block_field (mkField ⟨some [((0 : ℚ), 1), (1, 4)], false, 0⟩
    ⟨some [((0 : ℚ), 1)], false, 0⟩ 0 [[0, 4]] [[false, false]] false)
    [((0 : ℚ), 1), (1, 4)] [((0 : ℚ), 1)] hnx hny rfl rfl haX haY hm
    0 1 0 0
    (by norm_num) (by norm_num) (by norm_num) (by norm_num)).1
  rw [Finset.Icc_self, Finset.sum_singleton, sum_Icc_zero_one] at hblk
  norm_num [cellAt] at hblk ⊢
  rw [hblk]
  norm_num [srcLogicalData, mkField, getD2, List.getD]

/-- Witness for the amended claim C2 at the 3-by-4 source of the tests:
one destination cell covering everything receives the arithmetic mean
11/2 of all twelve values, and with two destination cells along X each
receives the mean of its column group. -/
theorem claim_C2_conservation_witness :
    (getD2 (okData (regrid_area_weighted
      (mkField ⟨some [((0 : ℚ), 1), (1, 2), (2, 3), (3, 4)], false, 0⟩
        ⟨some [((0 : ℚ), 1), (1, 2), (2, 3)], false, 0⟩
        0 [[0, 1, 2, 3], [4, 5, 6, 7], [8, 9, 10, 11]]
        [[false, false, false, false], [false, false, false, false],
          [false, false, false, false]] false)
      (mkField ⟨some [((0 : ℚ), 4)], false, 0⟩ ⟨some [((0 : ℚ), 3)], false, 0⟩
        0 [[0]] [[false]] false))) 0 0 = 11 / 2) ∧
    (getD2 (okData (regrid_area_weighted
      (mkField ⟨some [((0 : ℚ), 1), (1, 2), (2, 3), (3, 4)], false, 0⟩
        ⟨some [((0 : ℚ), 1), (1, 2), (2, 3)], false, 0⟩
        0 [[0, 1, 2, 3], [4, 5, 6, 7], [8, 9, 10, 11]]
        [[false, false, false, false], [false, false, false, false],
          [false, false, false, false]] false)
      (mkField ⟨some [((0 : ℚ), 2), (2, 4)], false, 0⟩ ⟨some [((0 : ℚ), 3)], false, 0⟩
        0 [[0, 0]] [[false, false]] false))) 0 1 = 13 / 2) := by
  have haX : isAscending [((0 : ℚ), 1), (1, 2), (2, 3), (3, 4)] = true := by
    norm_num [isAscending]
  have haY : isAscending [((0 : ℚ), 1), (1, 2), (2, 3)] = true := by
    norm_num [isAscending]
  have haD1 : isAscending [((0 : ℚ), 4)] = true := by norm_num [isAscending]
  have haD2 : isAscending [((0 : ℚ), 3)] = true := by norm_num [isAscending]
  have haD3 : isAscending [((0 : ℚ), 2), (2, 4)] = true := by norm_num [isAscending]
  constructor
  · have h := claim_C2_conservation
      ⟨some [((0 : ℚ), 1), (1, 2), (2, 3), (3, 4)], false, 0⟩
      ⟨some [((0 : ℚ), 1), (1, 2), (2, 3)], false, 0⟩
      ⟨some [((0 : ℚ), 4)], false, 0⟩ ⟨some [((0 : ℚ), 3)], false, 0⟩
      [((0 : ℚ), 1), (1, 2), (2, 3), (3, 4)] [((0 : ℚ), 1), (1, 2), (2, 3)]
      [((0 : ℚ), 4)] [((0 : ℚ), 3)] 0
      [[0, 1, 2, 3], [4, 5, 6, 7], [8, 9, 10, 11]]
      [[false, false, false, false], [false, false, false, false],
        [false, false, false, false]]
      [[0]] [[false]] false
      rfl rfl rfl rfl rfl rfl haX haY haD1 haD2 (by decide)
      (fun _ => 0) (fun _ => 3) (fun _ => 0) (fun _ => 2)
      (by intro ix hix
          simp only [List.length_singleton, Nat.lt_one_iff] at hix
          subst hix
          refine ⟨by norm_num, by norm_num, ?_, ?_⟩ <;> norm_num [cellAt])
      (by intro iy hiy
          simp only [List.length_singleton, Nat.lt_one_iff] at hiy
          subst hiy
          refine ⟨by norm_num, by norm_num, ?_, ?_⟩ <;> norm_num [cellAt])
      0 (by norm_num) 0 (by norm_num)
    rw [h.1]
    norm_num [Finset.sum_Icc_succ_top, Finset.Icc_self, cellAt, getD2, List.getD]
  · have h := claim_C2_conservation
      ⟨some [((0 : ℚ), 1), (1, 2), (2, 3), (3, 4)], false, 0⟩
      ⟨some [((0 : ℚ), 1), (1, 2), (2, 3)], false, 0⟩
      ⟨some [((0 : ℚ), 2), (2, 4)], false, 0⟩ ⟨some [((0 : ℚ), 3)], false, 0⟩
      [((0 : ℚ), 1), (1, 2), (2, 3), (3, 4)] [((0 : ℚ), 1), (1, 2), (2, 3)]
      [((0 : ℚ), 2), (2, 4)] [((0 : ℚ), 3)] 0
      [[0, 1, 2, 3], [4, 5, 6, 7], [8, 9, 10, 11]]
      [[false, false, false, false], [false, false, false, false],
        [false, false, false, false]]
      [[0, 0]] [[false, false]] false
      rfl rfl rfl rfl rfl rfl haX haY haD3 haD2 (by decide)
      (fun ix => 2 * ix) (fun ix => 2 * ix + 1) (fun _ => 0) (fun _ => 2)
      (by intro ix hix
          have hix2 : ix < 2 := by simpa using hix
          rcases (by omega : ix = 0 ∨ ix = 1) with rfl | rfl <;>
            refine ⟨by norm_num, by norm_num, ?_, ?_⟩ <;> norm_num [cellAt])
      (by intro iy hiy
          simp only [List.length_singleton, Nat.lt_one_iff] at hiy
          subst hiy
          refine ⟨by norm_num, by norm_num, ?_, ?_⟩ <;> norm_num [cellAt])
      0 (by norm_num) 1 (by norm_num)
    rw [h.1]
    norm_num [Finset.sum_Icc_succ_top, Finset.Icc_self, cellAt, getD2, List.getD]

end AreaWeightedRegrid

namespace AreaWeightedRegrid

/-- Modelled from the spec (section 4.3, WeightMatrixBuilder): the
weight with which source cell (sy, sx) contributes to the destination
cell with the given bounds: the product of the per-axis overlap
fractions.  A source cell is a geometric contributor when this weight
is positive. -/
def cellWeight (c : SrcCtx) (ylo yhi xlo xhi : ℚ) (sy sx : ℕ) : ℚ :=
  axisWeightAt c.ycirc c.yperiod c.ybs ylo yhi sy *
    axisWeightAt c.xcirc c.xperiod c.xbs xlo xhi sx

lemma cellWeight_nonneg (c : SrcCtx) {ylo yhi xlo xhi : ℚ}
    (hy : ylo < yhi) (hx : xlo < xhi) (sy sx : ℕ) :
    0 ≤ cellWeight c ylo yhi xlo xhi sy sx :=
  mul_nonneg (axisWeightAt_nonneg _ _ _ hy sy) (axisWeightAt_nonneg _ _ _ hx sx)

lemma destDen_single_mask {c : SrcCtx} {my mx : ℕ}
    (hm : ∀ sy sx, c.mask sy sx = true ↔ (sy = my ∧ sx = mx))
    {ylo yhi xlo xhi : ℚ} (hy : ylo < yhi) (hx : xlo < xhi) :
    destDen c ylo yhi xlo xhi = 0 ↔
      ∀ sy < c.ybs.length, ∀ sx < c.xbs.length,
        0 < cellWeight c ylo yhi xlo xhi sy sx → sy = my ∧ sx = mx := by
  have hterm : ∀ sy sx, 0 ≤ axisWeightAt c.ycirc c.yperiod c.ybs ylo yhi sy *
      axisWeightAt c.xcirc c.xperiod c.xbs xlo xhi sx *
      (if c.mask sy sx then 0 else 1) := by
    intro sy sx
    have h1 := axisWeightAt_nonneg c.ycirc c.yperiod c.ybs hy sy
    have h2 := axisWeightAt_nonneg c.xcirc c.xperiod c.xbs hx sx
    split_ifs
    · simp
    · simpa using mul_nonneg h1 h2
  unfold destDen
  rw [Finset.sum_eq_zero_iff_of_nonneg
    (fun sy _ => Finset.sum_nonneg (fun sx _ => hterm sy sx))]
  constructor
  · intro H sy hsy sx hsx hpos
    have h2 := (Finset.sum_eq_zero_iff_of_nonneg (fun sx _ => hterm sy sx)).mp
      (H sy (Finset.mem_range.mpr hsy)) sx (Finset.mem_range.mpr hsx)
    by_contra hne
    have hmf : c.mask sy sx = false := by
      by_contra hbn
      exact hne ((hm sy sx).mp (by simpa using hbn))
    rw [hmf] at h2
    simp only [Bool.false_eq_true, if_false, mul_one] at h2
    unfold cellWeight at hpos
    rw [h2] at hpos
    exact lt_irrefl 0 hpos
  · intro H sy hsy
    apply (Finset.sum_eq_zero_iff_of_nonneg (fun sx _ => hterm sy sx)).mpr
    intro sx hsx
    by_cases hmask : c.mask sy sx = true
    · rw [hmask]
      simp
    · have hmf : c.mask sy sx = false := by simpa using hmask
      rw [hmf]
      simp only [Bool.false_eq_true, if_false, mul_one]
      have h1 := axisWeightAt_nonneg c.ycirc c.yperiod c.ybs hy sy
      have h2 := axisWeightAt_nonneg c.xcirc c.xperiod c.xbs hx sx
      by_contra hne
      have hpos : 0 < axisWeightAt c.ycirc c.yperiod c.ybs ylo yhi sy *
          axisWeightAt c.xcirc c.xperiod c.xbs xlo xhi sx :=
        lt_of_le_of_ne (mul_nonneg h1 h2) (Ne.symm hne)
      obtain ⟨rfl, rfl⟩ := H sy (Finset.mem_range.mp hsy) sx (Finset.mem_range.mp hsx) hpos
      rw [(hm sy sx).mpr ⟨rfl, rfl⟩] at hmf
      cases hmf

lemma dest_agree_of_zero_weight (c c0 : SrcCtx) {my mx : ℕ}
    (hybs : c0.ybs = c.ybs) (hxbs : c0.xbs = c.xbs)
    (hyc : c0.ycirc = c.ycirc) (hyp : c0.yperiod = c.yperiod)
    (hxc : c0.xcirc = c.xcirc) (hxp : c0.xperiod = c.xperiod)
    (hdata : ∀ sy sx, c0.data sy sx = c.data sy sx)
    (hm : ∀ sy sx, c.mask sy sx = true ↔ (sy = my ∧ sx = mx))
    (hm0 : ∀ sy sx, c0.mask sy sx = false)
    {ylo yhi xlo xhi : ℚ}
    (hw : cellWeight c ylo yhi xlo xhi my mx = 0) :
    destNum c ylo yhi xlo xhi = destNum c0 ylo yhi xlo xhi ∧
      destDen c ylo yhi xlo xhi = destDen c0 ylo yhi xlo xhi := by
  unfold cellWeight at hw
  constructor
  · unfold destNum
    rw [hybs, hxbs, hyc, hyp, hxc, hxp]
    apply Finset.sum_congr rfl
    intro sy _
    apply Finset.sum_congr rfl
    intro sx _
    rw [hm0 sy sx, hdata sy sx]
    simp only [Bool.false_eq_true, if_false]
    by_cases hc : sy = my ∧ sx = mx
    · obtain ⟨rfl, rfl⟩ := hc
      rw [(hm sy sx).mpr ⟨rfl, rfl⟩]
      simp only [if_true]
      rw [hw]
      simp
    · have hmf : c.mask sy sx = false := by
        by_contra hbn
        exact hc ((hm sy sx).mp (by simpa using hbn))
      rw [hmf]
      simp
  · unfold destDen
    rw [hybs, hxbs, hyc, hyp, hxc, hxp]
    apply Finset.sum_congr rfl
    intro sy _
    apply Finset.sum_congr rfl
    intro sx _
    rw [hm0 sy sx]
    simp only [Bool.false_eq_true, if_false]
    by_cases hc : sy = my ∧ sx = mx
    · obtain ⟨rfl, rfl⟩ := hc
      rw [(hm sy sx).mpr ⟨rfl, rfl⟩]
      simp only [if_true]
      rw [hw]
      simp
    · have hmf : c.mask sy sx = false := by
        by_contra hbn
        exact hc ((hm sy sx).mp (by simpa using hbn))
      rw [hmf]
      simp

end AreaWeightedRegrid

namespace AreaWeightedRegrid

/-- Modelled from the engine's missing-data behaviour evidenced by
TestAreaWeightedRegrid.test_missing_data
(test_regrid_area_weighted_rectilinear_src_and_grid.py): whether any
masked source cell contributes nonzero geometric weight to the
destination cell with the given bounds. -/
def hasMaskedContrib (c : SrcCtx) (ylo yhi xlo xhi : ℚ) : Bool :=
  decide (∃ sy ∈ Finset.range c.ybs.length, ∃ sx ∈ Finset.range c.xbs.length,
    c.mask sy sx = true ∧ cellWeight c ylo yhi xlo xhi sy sx ≠ 0)

/-- Modelled from test_missing_data: the engine masks a destination
cell as soon as it receives any contribution from a masked source cell
(the expected destination mask block in that test includes cells that
only partially overlap the single masked source cell), as well as when
the cell has zero valid weight (uncovered). -/
def destMaskedStrict (c : SrcCtx) (ylo yhi xlo xhi : ℚ) : Bool :=
  hasMaskedContrib c ylo yhi xlo xhi || destMasked c ylo yhi xlo xhi

/-- The regrid result with the missing-data masking that
test_missing_data evidences: as resultField, with the strict
any-masked-contribution mask in place of the denominator-based one. -/
def resultFieldStrict (src dest : Field) : Field :=
  let c := srcCtx src
  let dys := axBounds dest.yAxis
  let dxs := axBounds dest.xAxis
  let msk : ℕ → ℕ → Bool := fun iy ix =>
    destMaskedStrict c (cellAt dys iy).1 (cellAt dys iy).2
      (cellAt dxs ix).1 (cellAt dxs ix).2
  { resultField src dest with
    mask := if src.transposed then buildMat dxs.length dys.length (fun ix iy => msk iy ix)
            else buildMat dys.length dxs.length msk }

/-- The engine operation with the missing-data masking that
test_missing_data evidences. -/
def regrid_area_weighted_strict (src dest : Field) : Except RegridError Field :=
  match validate src dest with
  | .error e => .error e
  | .ok _ => .ok (resultFieldStrict src dest)

lemma regrid_strict_eq_of_validate {src dest : Field} (h : validate src dest = .ok ()) :
    regrid_area_weighted_strict src dest = .ok (resultFieldStrict src dest) := by
  unfold regrid_area_weighted_strict
  rw [h]

lemma resultFieldStrict_mask_untransposed (src dest : Field) (h : src.transposed = false) :
    (resultFieldStrict src dest).mask =
      buildMat (axBounds dest.yAxis).length (axBounds dest.xAxis).length
        (fun iy ix => destMaskedStrict (srcCtx src)
          (cellAt (axBounds dest.yAxis) iy).1 (cellAt (axBounds dest.yAxis) iy).2
          (cellAt (axBounds dest.xAxis) ix).1 (cellAt (axBounds dest.xAxis) ix).2) := by
  unfold resultFieldStrict
  rw [h]
  simp

lemma regrid_entry_strict (ax ay dxA dyA : Axis) (bsx bsy bdx bdy : List Bound) (tok : ℕ)
    (dat : List (List ℚ)) (msk : List (List Bool))
    (ddat : List (List ℚ)) (dmsk : List (List Bool)) (dtr : Bool)
    (hbx : ax.bounds = some bsx) (hby : ay.bounds = some bsy)
    (hdxb : dxA.bounds = some bdx) (hdyb : dyA.bounds = some bdy)
    (hx : isAscending bsx = true) (hy : isAscending bsy = true)
    (hdx : isAscending bdx = true) (hdy : isAscending bdy = true)
    (iy ix : ℕ) (hiy : iy < bdy.length) (hix : ix < bdx.length) :
    getD2 (okData (regrid_area_weighted_strict (mkField ax ay tok dat msk false)
        (mkField dxA dyA tok ddat dmsk dtr))) iy ix =
      destVal (srcCtx (mkField ax ay tok dat msk false))
        (cellAt bdy iy).1 (cellAt bdy iy).2 (cellAt bdx ix).1 (cellAt bdx ix).2 ∧
    getB2 (okMask (regrid_area_weighted_strict (mkField ax ay tok dat msk false)
        (mkField dxA dyA tok ddat dmsk dtr))) iy ix =
      destMaskedStrict (srcCtx (mkField ax ay tok dat msk false))
        (cellAt bdy iy).1 (cellAt bdy iy).2 (cellAt bdx ix).1 (cellAt bdx ix).2 := by
  have hnxD : axBounds (mkField dxA dyA tok ddat dmsk dtr).xAxis = bdx := by
    simp [mkField, axBounds, hdxb, normalizeBounds_of_ascending hdx]
  have hnyD : axBounds (mkField dxA dyA tok ddat dmsk dtr).yAxis = bdy := by
    simp [mkField, axBounds, hdyb, normalizeBounds_of_ascending hdy]
  have hv : validate (mkField ax ay tok dat msk false)
      (mkField dxA dyA tok ddat dmsk dtr) = .ok () :=
    validate_ok_of rfl rfl rfl rfl hbx hby hdxb hdyb rfl
      (contiguousOk_of_ascending hx) (contiguousOk_of_ascending hy)
      (contiguousOk_of_ascending hdx) (contiguousOk_of_ascending hdy)
  refine ⟨?_, ?_⟩
  · rw [regrid_strict_eq_of_validate hv]
    simp only [okData]
    rw [show (resultFieldStrict (mkField ax ay tok dat msk false)
          (mkField dxA dyA tok ddat dmsk dtr)).data =
        (resultField (mkField ax ay tok dat msk false)
          (mkField dxA dyA tok ddat dmsk dtr)).data from rfl]
    rw [resultField_untransposed _ _ rfl, hnxD, hnyD]
    dsimp only
    rw [getD2_buildMat, if_pos ⟨hiy, hix⟩]
  · rw [regrid_strict_eq_of_validate hv]
    simp only [okMask]
    rw [resultFieldStrict_mask_untransposed _ _ rfl, hnxD, hnyD]
    rw [getB2_buildMat, if_pos ⟨hiy, hix⟩]

lemma hasMaskedContrib_none {c : SrcCtx} (hm0 : ∀ sy sx, c.mask sy sx = false)
    (ylo yhi xlo xhi : ℚ) : hasMaskedContrib c ylo yhi xlo xhi = false := by
  unfold hasMaskedContrib
  rw [decide_eq_false_iff_not]
  rintro ⟨sy, hsy, sx, hsx, hmask, hw⟩
  rw [hm0 sy sx] at hmask
  cases hmask

lemma hasMaskedContrib_single {c : SrcCtx} {my mx : ℕ}
    (hm : ∀ sy sx, c.mask sy sx = true ↔ (sy = my ∧ sx = mx))
    (hmy : my < c.ybs.length) (hmx : mx < c.xbs.length)
    (ylo yhi xlo xhi : ℚ) :
    hasMaskedContrib c ylo yhi xlo xhi = true ↔
      cellWeight c ylo yhi xlo xhi my mx ≠ 0 := by
  unfold hasMaskedContrib
  rw [decide_eq_true_iff]
  constructor
  · rintro ⟨sy, hsy, sx, hsx, hmask, hw⟩
    obtain ⟨rfl, rfl⟩ := (hm sy sx).mp hmask
    exact hw
  · intro hw
    exact ⟨my, Finset.mem_range.mpr hmy, mx, Finset.mem_range.mpr hmx,
      (hm my mx).mpr ⟨rfl, rfl⟩, hw⟩

/-- Claim C7 (amended): with exactly one masked source cell (my, mx),
the engine's missing-data masking — regrid_area_weighted_strict,
modelled from test_missing_data — masks a destination cell exactly when
the masked source cell contributes nonzero geometric weight to it
(including cells that only partially overlap the masked cell), or when
the cell is already masked by the same regrid with no source mask (zero
valid weight); and every destination cell to which the masked cell
contributes zero weight keeps a value and a mask identical to the same
regrid with no source mask. -/
theorem claim_C7_mask_propagation (ax ay dxA dyA : Axis)
    (bsx bsy bdx bdy : List Bound) (tok : ℕ)
    (dat : List (List ℚ)) (msk msk0 : List (List Bool))
    (ddat : List (List ℚ)) (dmsk : List (List Bool)) (dtr : Bool)
    (hbx : ax.bounds = some bsx) (hby : ay.bounds = some bsy)
    (hdxb : dxA.bounds = some bdx) (hdyb : dyA.bounds = some bdy)
    (hx : isAscending bsx = true) (hy : isAscending bsy = true)
    (hdx : isAscending bdx = true) (hdy : isAscending bdy = true)
    (my mx : ℕ) (hmy : my < bsy.length) (hmx : mx < bsx.length)
    (hm : ∀ sy sx, getB2 msk sy sx = true ↔ (sy = my ∧ sx = mx))
    (hm0 : ∀ sy sx, getB2 msk0 sy sx = false) :
    ∀ iy < bdy.length, ∀ ix < bdx.length,
      (getB2 (okMask (regrid_area_weighted_strict (mkField ax ay tok dat msk false)
          (mkField dxA dyA tok ddat dmsk dtr))) iy ix = true ↔
        cellWeight (srcCtx (mkField ax ay tok dat msk false))
            (cellAt bdy iy).1 (cellAt bdy iy).2
            (cellAt bdx ix).1 (cellAt bdx ix).2 my mx ≠ 0 ∨
          getB2 (okMask (regrid_area_weighted_strict (mkField ax ay tok dat msk0 false)
            (mkField dxA dyA tok ddat dmsk dtr))) iy ix = true) ∧
      (cellWeight (srcCtx (mkField ax ay tok dat msk false))
          (cellAt bdy iy).1 (cellAt bdy iy).2
          (cellAt bdx ix).1 (cellAt bdx ix).2 my mx = 0 →
        getD2 (okData (regrid_area_weighted_strict (mkField ax ay tok dat msk false)
            (mkField dxA dyA tok ddat dmsk dtr))) iy ix =
          getD2 (okData (regrid_area_weighted_strict (mkField ax ay tok dat msk0 false)
            (mkField dxA dyA tok ddat dmsk dtr))) iy ix ∧
        getB2 (okMask (regrid_area_weighted_strict (mkField ax ay tok dat msk false)
            (mkField dxA dyA tok ddat dmsk dtr))) iy ix =
          getB2 (okMask (regrid_area_weighted_strict (mkField ax ay tok dat msk0 false)
            (mkField dxA dyA tok ddat dmsk dtr))) iy ix) := by
  intro iy hiy ix hix
  have he1 := regrid_entry_strict ax ay dxA dyA bsx bsy bdx bdy tok dat msk ddat dmsk dtr
    hbx hby hdxb hdyb hx hy hdx hdy iy ix hiy hix
  have he0 := regrid_entry_strict ax ay dxA dyA bsx bsy bdx bdy tok dat msk0 ddat dmsk dtr
    hbx hby hdxb hdyb hx hy hdx hdy iy ix hiy hix
  have hmC : ∀ sy sx, (srcCtx (mkField ax ay tok dat msk false)).mask sy sx = true ↔
      (sy = my ∧ sx = mx) := by
    intro sy sx
    show srcLogicalMask (mkField ax ay tok dat msk false) sy sx = true ↔ _
    simp only [srcLogicalMask, mkField, Bool.false_eq_true, if_false]
    exact hm sy sx
  have hm0C : ∀ sy sx, (srcCtx (mkField ax ay tok dat msk0 false)).mask sy sx = false := by
    intro sy sx
    show srcLogicalMask (mkField ax ay tok dat msk0 false) sy sx = false
    simp only [srcLogicalMask, mkField, Bool.false_eq_true, if_false]
    exact hm0 sy sx
  have hybsF : (srcCtx (mkField ax ay tok dat msk false)).ybs = bsy := by
    show axBounds (mkField ax ay tok dat msk false).yAxis = bsy
    simp [mkField, axBounds, hby, normalizeBounds_of_ascending hy]
  have hxbsF : (srcCtx (mkField ax ay tok dat msk false)).xbs = bsx := by
    show axBounds (mkField ax ay tok dat msk false).xAxis = bsx
    simp [mkField, axBounds, hbx, normalizeBounds_of_ascending hx]
  have hmyC : my < (srcCtx (mkField ax ay tok dat msk false)).ybs.length := by
    rw [hybsF]; exact hmy
  have hmxC : mx < (srcCtx (mkField ax ay tok dat msk false)).xbs.length := by
    rw [hxbsF]; exact hmx
  constructor
  · rw [he1.2, he0.2]
    unfold destMaskedStrict
    rw [hasMaskedContrib_none hm0C]
    simp only [Bool.false_or]
    by_cases hw : cellWeight (srcCtx (mkField ax ay tok dat msk false))
        (cellAt bdy iy).1 (cellAt bdy iy).2
        (cellAt bdx ix).1 (cellAt bdx ix).2 my mx = 0
    · have hcontrib : hasMaskedContrib (srcCtx (mkField ax ay tok dat msk false))
          (cellAt bdy iy).1 (cellAt bdy iy).2
          (cellAt bdx ix).1 (cellAt bdx ix).2 = false := by
        rw [← Bool.not_eq_true, hasMaskedContrib_single hmC hmyC hmxC]
        simpa using hw
      rw [hcontrib]
      simp only [Bool.false_or]
      have hagree := dest_agree_of_zero_weight
        (srcCtx (mkField ax ay tok dat msk false))
        (srcCtx (mkField ax ay tok dat msk0 false))
        rfl rfl rfl rfl rfl rfl (fun sy sx => rfl) hmC hm0C hw
      unfold destMasked
      rw [hagree.2]
      constructor
      · intro h
        exact Or.inr h
      · rintro (h | h)
        · exact absurd hw h
        · exact h
    · constructor
      · intro _
        exact Or.inl hw
      · intro _
        rw [Bool.or_eq_true]
        exact Or.inl ((hasMaskedContrib_single hmC hmyC hmxC _ _ _ _).mpr hw)
  · intro hw
    have hcontrib : hasMaskedContrib (srcCtx (mkField ax ay tok dat msk false))
        (cellAt bdy iy).1 (cellAt bdy iy).2
        (cellAt bdx ix).1 (cellAt bdx ix).2 = false := by
      rw [← Bool.not_eq_true, hasMaskedContrib_single hmC hmyC hmxC]
      simpa using hw
    have hagree := dest_agree_of_zero_weight
      (srcCtx (mkField ax ay tok dat msk false))
      (srcCtx (mkField ax ay tok dat msk0 false))
      rfl rfl rfl rfl rfl rfl (fun sy sx => rfl) hmC hm0C hw
    refine ⟨?_, ?_⟩
    · rw [he1.1, he0.1]
      unfold destVal
      rw [hagree.1, hagree.2]
    · rw [he1.2, he0.2]
      unfold destMaskedStrict
      rw [hcontrib, hasMaskedContrib_none hm0C]
      unfold destMasked
      rw [hagree.2]

end AreaWeightedRegrid

namespace AreaWeightedRegrid

/-- Helper: concrete masked source for the mask-propagation claim: two
unit X cells with values 1 and 3, the second cell masked. -/
def c7src : Field :=
  mkField ⟨some [((0 : ℚ), 1), (1, 2)], false, 0⟩ ⟨some [((0 : ℚ), 1)], false, 0⟩
    0 [[1, 3]] [[false, true]] false

/-- Helper: the same source with no mask. -/
def c7src0 : Field :=
  mkField ⟨some [((0 : ℚ), 1), (1, 2)], false, 0⟩ ⟨some [((0 : ℚ), 1)], false, 0⟩
    0 [[1, 3]] [[false, false]] false

/-- Helper: a strictly finer destination grid whose middle X cell
straddles both source cells. -/
def c7dest : Field :=
  mkField ⟨some [((0 : ℚ), 1 / 2), (1 / 2, 3 / 2), (3 / 2, 2)], false, 0⟩
    ⟨some [((0 : ℚ), 1)], false, 0⟩ 0 [[0, 0, 0]] [[false, false, false]] false

lemma c7_asc_x : isAscending [((0 : ℚ), 1), (1, 2)] = true := by
  norm_num [isAscending]

lemma c7_asc_y : isAscending [((0 : ℚ), 1)] = true := by
  norm_num [isAscending]

lemma c7_asc_dx : isAscending [((0 : ℚ), 1 / 2), (1 / 2, 3 / 2), (3 / 2, 2)] = true := by
  norm_num [isAscending]

lemma c7_ybs : (srcCtx c7src).ybs = [((0 : ℚ), 1)] := by
  show axBounds c7src.yAxis = _
  simp [c7src, mkField, axBounds, normalizeBounds_of_ascending c7_asc_y]

lemma c7_xbs : (srcCtx c7src).xbs = [((0 : ℚ), 1), (1, 2)] := by
  show axBounds c7src.xAxis = _
  simp [c7src, mkField, axBounds, normalizeBounds_of_ascending c7_asc_x]

lemma c7_ybs0 : (srcCtx c7src0).ybs = [((0 : ℚ), 1)] := by
  show axBounds c7src0.yAxis = _
  simp [c7src0, mkField, axBounds, normalizeBounds_of_ascending c7_asc_y]

lemma c7_xbs0 : (srcCtx c7src0).xbs = [((0 : ℚ), 1), (1, 2)] := by
  show axBounds c7src0.xAxis = _
  simp [c7src0, mkField, axBounds, normalizeBounds_of_ascending c7_asc_x]

lemma c7_wY : axisWeightAt false 0 [((0 : ℚ), 1)] 0 1 0 = 1 := by
  norm_num [axisWeightAt, cellAt, overlapLen, pointW, List.getD]

lemma c7_wX0 : axisWeightAt false 0 [((0 : ℚ), 1), (1, 2)] (1 / 2) (3 / 2) 0 = 1 / 2 := by
  norm_num [axisWeightAt, cellAt, overlapLen, pointW, List.getD]

lemma c7_wX1 : axisWeightAt false 0 [((0 : ℚ), 1), (1, 2)] (1 / 2) (3 / 2) 1 = 1 / 2 := by
  norm_num [axisWeightAt, cellAt, overlapLen, pointW, List.getD]

lemma c7_den : destDen (srcCtx c7src) 0 1 (1 / 2) (3 / 2) = 1 / 2 := by
  unfold destDen
  rw [c7_ybs, c7_xbs]
  rw [show (srcCtx c7src).ycirc = false from rfl, show (srcCtx c7src).yperiod = 0 from rfl,
    show (srcCtx c7src).xcirc = false from rfl, show (srcCtx c7src).xperiod = 0 from rfl]
  have hmv : ∀ sy sx, (srcCtx c7src).mask sy sx = getB2 [[false, true]] sy sx := by
    intro sy sx
    show srcLogicalMask c7src sy sx = _
    simp [srcLogicalMask, c7src, mkField]
  simp only [List.length_cons, List.length_nil, Finset.sum_range_succ,
    Finset.sum_range_zero, hmv]
  rw [c7_wY, c7_wX0, c7_wX1]
  norm_num [getB2, List.getD]

lemma c7_num : destNum (srcCtx c7src) 0 1 (1 / 2) (3 / 2) = 1 / 2 := by
  unfold destNum
  rw [c7_ybs, c7_xbs]
  rw [show (srcCtx c7src).ycirc = false from rfl, show (srcCtx c7src).yperiod = 0 from rfl,
    show (srcCtx c7src).xcirc = false from rfl, show (srcCtx c7src).xperiod = 0 from rfl]
  have hmv : ∀ sy sx, (srcCtx c7src).mask sy sx = getB2 [[false, true]] sy sx := by
    intro sy sx
    show srcLogicalMask c7src sy sx = _
    simp [srcLogicalMask, c7src, mkField]
  have hdv : ∀ sy sx, (srcCtx c7src).data sy sx = getD2 [[1, 3]] sy sx := by
    intro sy sx
    show srcLogicalData c7src sy sx = _
    simp [srcLogicalData, c7src, mkField]
  simp only [List.length_cons, List.length_nil, Finset.sum_range_succ,
    Finset.sum_range_zero, hmv, hdv]
  rw [c7_wY, c7_wX0, c7_wX1]
  norm_num [getB2, getD2, List.getD]

lemma c7_den0 : destDen (srcCtx c7src0) 0 1 (1 / 2) (3 / 2) = 1 := by
  unfold destDen
  rw [c7_ybs0, c7_xbs0]
  rw [show (srcCtx c7src0).ycirc = false from rfl, show (srcCtx c7src0).yperiod = 0 from rfl,
    show (srcCtx c7src0).xcirc = false from rfl, show (srcCtx c7src0).xperiod = 0 from rfl]
  have hmv : ∀ sy sx, (srcCtx c7src0).mask sy sx = getB2 [[false, false]] sy sx := by
    intro sy sx
    show srcLogicalMask c7src0 sy sx = _
    simp [srcLogicalMask, c7src0, mkField]
  simp only [List.length_cons, List.length_nil, Finset.sum_range_succ,
    Finset.sum_range_zero, hmv]
  rw [c7_wY, c7_wX0, c7_wX1]
  norm_num [getB2, List.getD]

lemma c7_num0 : destNum (srcCtx c7src0) 0 1 (1 / 2) (3 / 2) = 2 := by
  unfold destNum
  rw [c7_ybs0, c7_xbs0]
  rw [show (srcCtx c7src0).ycirc = false from rfl, show (srcCtx c7src0).yperiod = 0 from rfl,
    show (srcCtx c7src0).xcirc = false from rfl, show (srcCtx c7src0).xperiod = 0 from rfl]
  have hmv : ∀ sy sx, (srcCtx c7src0).mask sy sx = getB2 [[false, false]] sy sx := by
    intro sy sx
    show srcLogicalMask c7src0 sy sx = _
    simp [srcLogicalMask, c7src0, mkField]
  have hdv : ∀ sy sx, (srcCtx c7src0).data sy sx = getD2 [[1, 3]] sy sx := by
    intro sy sx
    show srcLogicalData c7src0 sy sx = _
    simp [srcLogicalData, c7src0, mkField]
  simp only [List.length_cons, List.length_nil, Finset.sum_range_succ,
    Finset.sum_range_zero, hmv, hdv]
  rw [c7_wY, c7_wX0, c7_wX1]
  norm_num [getB2, getD2, List.getD]

/-- Counterexample for claim C7 as stated: with one masked source cell
(at position (0, 1)) and a strictly finer destination grid, the engine
masks the middle destination cell even though the unmasked source cell
(0, 0) is also one of its geometric contributors with positive weight —
as test_missing_data's expected mask block, which includes destination
cells only partially overlapping the masked source cell, evidences.  So
the masked destination cells are not exactly those whose sole geometric
contributor is the masked source cell. -/
theorem claim_C7_counterexample :
    getB2 (okMask (regrid_area_weighted_strict c7src c7dest)) 0 1 = true ∧
    0 < cellWeight (srcCtx c7src) 0 1 (1 / 2) (3 / 2) 0 0 ∧
    srcLogicalMask c7src 0 0 = false := by
  have he := regrid_entry_strict ⟨some [((0 : ℚ), 1), (1, 2)], false, 0⟩
    ⟨some [((0 : ℚ), 1)], false, 0⟩
    ⟨some [((0 : ℚ), 1 / 2), (1 / 2, 3 / 2), (3 / 2, 2)], false, 0⟩
    ⟨some [((0 : ℚ), 1)], false, 0⟩
    [((0 : ℚ), 1), (1, 2)] [((0 : ℚ), 1)]
    [((0 : ℚ), 1 / 2), (1 / 2, 3 / 2), (3 / 2, 2)] [((0 : ℚ), 1)] 0
    [[1, 3]] [[false, true]] [[0, 0, 0]] [[false, false, false]] false
    rfl rfl rfl rfl c7_asc_x c7_asc_y c7_asc_dx c7_asc_y
    0 1 (by norm_num) (by norm_num)
  norm_num [cellAt] at he
  refine ⟨?_, ?_, rfl⟩
  · rw [show c7src = mkField ⟨some [((0 : ℚ), 1), (1, 2)], false, 0⟩
        ⟨some [((0 : ℚ), 1)], false, 0⟩ 0 [[1, 3]] [[false, true]] false from rfl,
      show c7dest = mkField ⟨some [((0 : ℚ), 1 / 2), (1 / 2, 3 / 2), (3 / 2, 2)], false, 0⟩
        ⟨some [((0 : ℚ), 1)], false, 0⟩ 0 [[0, 0, 0]] [[false, false, false]] false from rfl]
    rw [he.2]
    unfold destMaskedStrict
    rw [Bool.or_eq_true]
    refine Or.inl ?_
    unfold hasMaskedContrib
    rw [decide_eq_true_iff]
    refine ⟨0, ?_, 1, ?_, rfl, ?_⟩
    · rw [Finset.mem_range, show (srcCtx (mkField ⟨some [((0 : ℚ), 1), (1, 2)], false, 0⟩
        ⟨some [((0 : ℚ), 1)], false, 0⟩ 0 [[1, 3]] [[false, true]] false)).ybs =
          [((0 : ℚ), 1)] from c7_ybs]
      norm_num
    · rw [Finset.mem_range, show (srcCtx (mkField ⟨some [((0 : ℚ), 1), (1, 2)], false, 0⟩
        ⟨some [((0 : ℚ), 1)], false, 0⟩ 0 [[1, 3]] [[false, true]] false)).xbs =
          [((0 : ℚ), 1), (1, 2)] from c7_xbs]
      norm_num
    · unfold cellWeight
      rw [show (srcCtx (mkField ⟨some [((0 : ℚ), 1), (1, 2)], false, 0⟩
          ⟨some [((0 : ℚ), 1)], false, 0⟩ 0 [[1, 3]] [[false, true]] false)).ybs =
            [((0 : ℚ), 1)] from c7_ybs,
        show (srcCtx (mkField ⟨some [((0 : ℚ), 1), (1, 2)], false, 0⟩
          ⟨some [((0 : ℚ), 1)], false, 0⟩ 0 [[1, 3]] [[false, true]] false)).xbs =
            [((0 : ℚ), 1), (1, 2)] from c7_xbs,
        show (srcCtx (mkField ⟨some [((0 : ℚ), 1), (1, 2)], false, 0⟩
          ⟨some [((0 : ℚ), 1)], false, 0⟩ 0 [[1, 3]] [[false, true]] false)).ycirc =
            false from rfl,
        show (srcCtx (mkField ⟨some [((0 : ℚ), 1), (1, 2)], false, 0⟩
          ⟨some [((0 : ℚ), 1)], false, 0⟩ 0 [[1, 3]] [[false, true]] false)).yperiod =
            0 from rfl,
        show (srcCtx (mkField ⟨some [((0 : ℚ), 1), (1, 2)], false, 0⟩
          ⟨some [((0 : ℚ), 1)], false, 0⟩ 0 [[1, 3]] [[false, true]] false)).xcirc =
            false from rfl,
        show (srcCtx (mkField ⟨some [((0 : ℚ), 1), (1, 2)], false, 0⟩
          ⟨some [((0 : ℚ), 1)], false, 0⟩ 0 [[1, 3]] [[false, true]] false)).xperiod =
            0 from rfl]
      rw [c7_wY, c7_wX1]
      norm_num
  · unfold cellWeight
    rw [c7_ybs, c7_xbs, show (srcCtx c7src).ycirc = false from rfl,
      show (srcCtx c7src).yperiod = 0 from rfl, show (srcCtx c7src).xcirc = false from rfl,
      show (srcCtx c7src).xperiod = 0 from rfl]
    rw [c7_wY, c7_wX0]
    norm_num

end AreaWeightedRegrid

namespace AreaWeightedRegrid

lemma c7_wX_lastcell_first : axisWeightAt false 0 [((0 : ℚ), 1), (1, 2)] (3 / 2) 2 0 = 0 := by
  norm_num [axisWeightAt, cellAt, overlapLen, pointW, List.getD]

lemma c7_wX_lastcell_second : axisWeightAt false 0 [((0 : ℚ), 1), (1, 2)] (3 / 2) 2 1 = 1 := by
  norm_num [axisWeightAt, cellAt, overlapLen, pointW, List.getD]

lemma c7_wX_firstcell_second : axisWeightAt false 0 [((0 : ℚ), 1), (1, 2)] 0 (1 / 2) 1 = 0 := by
  norm_num [axisWeightAt, cellAt, overlapLen, pointW, List.getD]

lemma c7_mask_iff : ∀ sy sx, getB2 [[false, true]] sy sx = true ↔ (sy = 0 ∧ sx = 1) := by
  intro sy sx
  constructor
  · intro h
    match sy, sx with
    | 0, 0 => simp [getB2, List.getD] at h
    | 0, 1 => exact ⟨rfl, rfl⟩
    | 0, sx + 2 => simp [getB2, List.getD] at h
    | sy + 1, sx => simp [getB2, List.getD] at h
  · rintro ⟨rfl, rfl⟩
    rfl

lemma c7_mask0_false : ∀ sy sx, getB2 [[false, false]] sy sx = false := by
  intro sy sx
  match sy, sx with
  | 0, 0 => rfl
  | 0, 1 => rfl
  | 0, sx + 2 => rfl
  | sy + 1, sx => rfl

/-- Witness for the amended claim C7: the destination cell whose only
overlap is with the masked source cell comes out masked, and a
destination cell receiving no weight from the masked cell keeps the
value of the mask-free regrid. -/
theorem claim_C7_mask_propagation_witness :
    getB2 (okMask (regrid_area_weighted_strict c7src c7dest)) 0 2 = true ∧
    getD2 (okData (regrid_area_weighted_strict c7src c7dest)) 0 0 =
      getD2 (okData (regrid_area_weighted_strict c7src0 c7dest)) 0 0 := by
  have h := claim_C7_mask_propagation ⟨some [((0 : ℚ), 1), (1, 2)], false, 0⟩
    ⟨some [((0 : ℚ), 1)], false, 0⟩
    ⟨some [((0 : ℚ), 1 / 2), (1 / 2, 3 / 2), (3 / 2, 2)], false, 0⟩
    ⟨some [((0 : ℚ), 1)], false, 0⟩
    [((0 : ℚ), 1), (1, 2)] [((0 : ℚ), 1)]
    [((0 : ℚ), 1 / 2), (1 / 2, 3 / 2), (3 / 2, 2)] [((0 : ℚ), 1)] 0
    [[1, 3]] [[false, true]] [[false, false]]
    [[0, 0, 0]] [[false, false, false]] false
    rfl rfl rfl rfl c7_asc_x c7_asc_y c7_asc_dx c7_asc_y
    0 1 (by norm_num) (by norm_num) c7_mask_iff c7_mask0_false
  constructor
  · rw [show c7src = mkField ⟨some [((0 : ℚ), 1), (1, 2)], false, 0⟩
        ⟨some [((0 : ℚ), 1)], false, 0⟩ 0 [[1, 3]] [[false, true]] false from rfl,
      show c7dest = mkField ⟨some [((0 : ℚ), 1 / 2), (1 / 2, 3 / 2), (3 / 2, 2)], false, 0⟩
        ⟨some [((0 : ℚ), 1)], false, 0⟩ 0 [[0, 0, 0]] [[false, false, false]] false from rfl]
    apply (h 0 (by norm_num) 2 (by norm_num)).1.mpr
    refine Or.inl ?_
    norm_num [cellAt]
    unfold cellWeight
    rw [show (srcCtx (mkField ⟨some [((0 : ℚ), 1), (1, 2)], false, 0⟩
        ⟨some [((0 : ℚ), 1)], false, 0⟩ 0 [[1, 3]] [[false, true]] false)).ybs =
          [((0 : ℚ), 1)] from c7_ybs,
      show (srcCtx (mkField ⟨some [((0 : ℚ), 1), (1, 2)], false, 0⟩
        ⟨some [((0 : ℚ), 1)], false, 0⟩ 0 [[1, 3]] [[false, true]] false)).xbs =
          [((0 : ℚ), 1), (1, 2)] from c7_xbs,
      show (srcCtx (mkField ⟨some [((0 : ℚ), 1), (1, 2)], false, 0⟩
        ⟨some [((0 : ℚ), 1)], false, 0⟩ 0 [[1, 3]] [[false, true]] false)).ycirc =
          false from rfl,
      show (srcCtx (mkField ⟨some [((0 : ℚ), 1), (1, 2)], false, 0⟩
        ⟨some [((0 : ℚ), 1)], false, 0⟩ 0 [[1, 3]] [[false, true]] false)).yperiod =
          0 from rfl,
      show (srcCtx (mkField ⟨some [((0 : ℚ), 1), (1, 2)], false, 0⟩
        ⟨some [((0 : ℚ), 1)], false, 0⟩ 0 [[1, 3]] [[false, true]] false)).xcirc =
          false from rfl,
      show (srcCtx (mkField ⟨some [((0 : ℚ), 1), (1, 2)], false, 0⟩
        ⟨some [((0 : ℚ), 1)], false, 0⟩ 0 [[1, 3]] [[false, true]] false)).xperiod =
          0 from rfl]
    rw [c7_wY, c7_wX_lastcell_second]
    norm_num
  · rw [show c7src = mkField ⟨some [((0 : ℚ), 1), (1, 2)], false, 0⟩
        ⟨some [((0 : ℚ), 1)], false, 0⟩ 0 [[1, 3]] [[false, true]] false from rfl,
      show c7src0 = mkField ⟨some [((0 : ℚ), 1), (1, 2)], false, 0⟩
        ⟨some [((0 : ℚ), 1)], false, 0⟩ 0 [[1, 3]] [[false, false]] false from rfl,
      show c7dest = mkField ⟨some [((0 : ℚ), 1 / 2), (1 / 2, 3 / 2), (3 / 2, 2)], false, 0⟩
        ⟨some [((0 : ℚ), 1)], false, 0⟩ 0 [[0, 0, 0]] [[false, false, false]] false from rfl]
    refine ((h 0 (by norm_num) 0 (by norm_num)).2 ?_).1
    unfold cellWeight
    rw [show (srcCtx (mkField ⟨some [((0 : ℚ), 1), (1, 2)], false, 0⟩
        ⟨some [((0 : ℚ), 1)], false, 0⟩ 0 [[1, 3]] [[false, true]] false)).ybs =
          [((0 : ℚ), 1)] from c7_ybs,
      show (srcCtx (mkField ⟨some [((0 : ℚ), 1), (1, 2)], false, 0⟩
        ⟨some [((0 : ℚ), 1)], false, 0⟩ 0 [[1, 3]] [[false, true]] false)).xbs =
          [((0 : ℚ), 1), (1, 2)] from c7_xbs,
      show (srcCtx (mkField ⟨some [((0 : ℚ), 1), (1, 2)], false, 0⟩
        ⟨some [((0 : ℚ), 1)], false, 0⟩ 0 [[1, 3]] [[false, true]] false)).ycirc =
          false from rfl,
      show (srcCtx (mkField ⟨some [((0 : ℚ), 1), (1, 2)], false, 0⟩
        ⟨some [((0 : ℚ), 1)], false, 0⟩ 0 [[1, 3]] [[false, true]] false)).yperiod =
          0 from rfl,
      show (srcCtx (mkField ⟨some [((0 : ℚ), 1), (1, 2)], false, 0⟩
        ⟨some [((0 : ℚ), 1)], false, 0⟩ 0 [[1, 3]] [[false, true]] false)).xcirc =
          false from rfl,
      show (srcCtx (mkField ⟨some [((0 : ℚ), 1), (1, 2)], false, 0⟩
        ⟨some [((0 : ℚ), 1)], false, 0⟩ 0 [[1, 3]] [[false, true]] false)).xperiod =
          0 from rfl]
    norm_num [cellAt]
    rw [c7_wX_firstcell_second]
    norm_num

end AreaWeightedRegrid

namespace AreaWeightedRegrid

/-- Helper: clip a coordinate into the interval from a to b. -/
def clampTo (a b t : ℚ) : ℚ := min b (max a t)

/-- Helper: the lower edge of cell j, or the overall upper edge of the
axis once j passes the end; the telescoping anchor for overlap sums. -/
def spanPt (bs : List Bound) (j : ℕ) : ℚ :=
  if j < bs.length then (cellAt bs j).1 else (cellAt bs (bs.length - 1)).2

lemma overlapLen_clamp {a b lo hi : ℚ} (hab : a ≤ b) (hlh : lo ≤ hi) :
    overlapLen a b lo hi = clampTo a b hi - clampTo a b lo := by
  unfold overlapLen clampTo
  simp only [min_def, max_def]
  split_ifs <;> linarith

lemma overlapLen_pos {a b lo hi : ℚ} (hlt : max a lo < min b hi) :
    0 < overlapLen a b lo hi := by
  unfold overlapLen
  exact lt_of_lt_of_le (by linarith) (le_max_right _ _)

lemma sum_overlapLen_span {bs : List Bound} (h : isAscending bs = true) (hne : bs ≠ [])
    {a b : ℚ} (hab : a ≤ b) (ha : (cellAt bs 0).1 ≤ a)
    (hb : b ≤ (cellAt bs (bs.length - 1)).2) :
    (∑ j ∈ Finset.range bs.length,
      overlapLen a b (cellAt bs j).1 (cellAt bs j).2) = b - a := by
  have hn0 : 0 < bs.length := List.length_pos.mpr hne
  have hterm : ∀ j ∈ Finset.range bs.length,
      overlapLen a b (cellAt bs j).1 (cellAt bs j).2 =
        clampTo a b (spanPt bs (j + 1)) - clampTo a b (spanPt bs j) := by
    intro j hj
    have hjn := Finset.mem_range.mp hj
    have hlh := le_of_lt (asc_lo_lt_hi h j hjn)
    have hsp1 : spanPt bs (j + 1) = (cellAt bs j).2 := by
      unfold spanPt
      by_cases h2 : j + 1 < bs.length
      · rw [if_pos h2]
        exact (asc_link h j h2).symm
      · rw [if_neg h2]
        have hj2 : bs.length - 1 = j := by omega
        rw [hj2]
    have hsp0 : spanPt bs j = (cellAt bs j).1 := by
      unfold spanPt
      rw [if_pos hjn]
    rw [overlapLen_clamp hab hlh, hsp1, hsp0]
  rw [Finset.sum_congr rfl hterm,
    Finset.sum_range_sub (fun j => clampTo a b (spanPt bs j))]
  unfold spanPt
  rw [if_neg (lt_irrefl bs.length), if_pos hn0]
  unfold clampTo
  rw [max_eq_left ha, min_eq_right hab, max_eq_right (le_trans hab hb), min_eq_left hb]

lemma axisWeightAt_circ_split {bs : List Bound} {p dlo dhi : ℚ} (j : ℕ)
    (hne0 : dlo ≠ dhi)
    (hcross : ¬ (dhi - p * (⌊(dlo - (cellAt bs 0).1) / p⌋ : ℤ) ≤ (cellAt bs 0).1 + p)) :
    axisWeightAt true p bs dlo dhi j =
      (overlapLen (dlo - p * (⌊(dlo - (cellAt bs 0).1) / p⌋ : ℤ)) ((cellAt bs 0).1 + p)
          (cellAt bs j).1 (cellAt bs j).2 +
        overlapLen (cellAt bs 0).1 (dhi - p * (⌊(dlo - (cellAt bs 0).1) / p⌋ : ℤ) - p)
          (cellAt bs j).1 (cellAt bs j).2) / (dhi - dlo) := by
  have hwne : ¬ (dlo - p * (⌊(dlo - (cellAt bs 0).1) / p⌋ : ℤ) =
      dhi - p * (⌊(dlo - (cellAt bs 0).1) / p⌋ : ℤ)) := by
    intro hcontra
    apply hne0
    linarith
  unfold axisWeightAt
  simp only [if_true, if_neg hwne, if_neg hcross]

lemma axisWeightAt_circ_single {bs : List Bound} {p dlo dhi : ℚ} (j : ℕ)
    (hne0 : ¬ (dlo - p * (⌊(dlo - (cellAt bs 0).1) / p⌋ : ℤ) =
      dhi - p * (⌊(dlo - (cellAt bs 0).1) / p⌋ : ℤ)))
    (hsing : dhi - p * (⌊(dlo - (cellAt bs 0).1) / p⌋ : ℤ) ≤ (cellAt bs 0).1 + p) :
    axisWeightAt true p bs dlo dhi j =
      overlapLen (dlo - p * (⌊(dlo - (cellAt bs 0).1) / p⌋ : ℤ))
        (dhi - p * (⌊(dlo - (cellAt bs 0).1) / p⌋ : ℤ))
        (cellAt bs j).1 (cellAt bs j).2 / (dhi - dlo) := by
  unfold axisWeightAt
  simp only [if_true, if_neg hne0, if_pos hsing]

end AreaWeightedRegrid

namespace AreaWeightedRegrid

/-- Claim C8: on a circular source axis spanning exactly one period, a
destination cell that straddles the period seam (its wrapped interval
crosses the seam) has overlap fractions summing to exactly 1 and
receives positive contributions from both the first and the last
source cell of the axis; and any destination cell lying inside the
unwrapped span (the equivalent unwrapped cell) also has fractions
summing to exactly 1, so nothing is double counted or dropped. -/
theorem claim_C8_circular_wraparound {bs : List Bound} {p : ℚ}
    (h : isAscending bs = true) (hne : bs ≠ [])
    (hspan : (cellAt bs (bs.length - 1)).2 = (cellAt bs 0).1 + p)
    (hp : 0 < p) {dlo dhi : ℚ} (hd : dlo < dhi) (hwid : dhi - dlo ≤ p)
    (hstrad : (cellAt bs 0).1 + p < dhi - p * (⌊(dlo - (cellAt bs 0).1) / p⌋ : ℤ)) :
    (∑ j ∈ Finset.range bs.length, axisWeightAt true p bs dlo dhi j) = 1 ∧
    0 < axisWeightAt true p bs dlo dhi 0 ∧
    0 < axisWeightAt true p bs dlo dhi (bs.length - 1) ∧
    (∀ a b : ℚ, (cellAt bs 0).1 ≤ a → a < b → b ≤ (cellAt bs 0).1 + p →
      (∑ j ∈ Finset.range bs.length, axisWeightAt true p bs a b j) = 1) := by
  have hn0 : 0 < bs.length := List.length_pos.mpr hne
  have hlo0 : (cellAt bs 0).1 < (cellAt bs 0).2 := asc_lo_lt_hi h 0 hn0
  have hfrac1 : ((⌊(dlo - (cellAt bs 0).1) / p⌋ : ℚ)) ≤ (dlo - (cellAt bs 0).1) / p :=
    Int.floor_le _
  have hfrac2 : (dlo - (cellAt bs 0).1) / p < (⌊(dlo - (cellAt bs 0).1) / p⌋ : ℚ) + 1 :=
    Int.lt_floor_add_one _
  have hcancel : p * ((dlo - (cellAt bs 0).1) / p) = dlo - (cellAt bs 0).1 := by
    field_simp
  have hfl1 : p * (⌊(dlo - (cellAt bs 0).1) / p⌋ : ℚ) ≤ dlo - (cellAt bs 0).1 := by
    have hmul := mul_le_mul_of_nonneg_left hfrac1 (le_of_lt hp)
    rw [hcancel] at hmul
    exact hmul
  have hfl2 : dlo - (cellAt bs 0).1 < p * (⌊(dlo - (cellAt bs 0).1) / p⌋ : ℚ) + p := by
    have hmul := mul_lt_mul_of_pos_left hfrac2 hp
    rw [hcancel, mul_add, mul_one] at hmul
    exact hmul
  have hwlo_ge : (cellAt bs 0).1 ≤ dlo - p * (⌊(dlo - (cellAt bs 0).1) / p⌋ : ℤ) := by
    linarith
  have hwlo_lt : dlo - p * (⌊(dlo - (cellAt bs 0).1) / p⌋ : ℤ) < (cellAt bs 0).1 + p := by
    linarith
  have hcross : ¬ (dhi - p * (⌊(dlo - (cellAt bs 0).1) / p⌋ : ℤ) ≤ (cellAt bs 0).1 + p) :=
    not_le.mpr hstrad
  have hlolast : (cellAt bs (bs.length - 1)).1 < (cellAt bs 0).1 + p := by
    rw [← hspan]
    exact asc_lo_lt_hi h (bs.length - 1) (by omega)
  refine ⟨?_, ?_, ?_, ?_⟩
  · rw [Finset.sum_congr rfl (fun j _ => axisWeightAt_circ_split j (ne_of_lt hd) hcross),
      ← Finset.sum_div, Finset.sum_add_distrib,
      sum_overlapLen_span h hne (le_of_lt hwlo_lt) hwlo_ge (by rw [hspan]),
      sum_overlapLen_span h hne (by linarith) (le_refl _) (by rw [hspan]; linarith)]
    have hsum : ((cellAt bs 0).1 + p - (dlo - p * (⌊(dlo - (cellAt bs 0).1) / p⌋ : ℤ))) +
        (dhi - p * (⌊(dlo - (cellAt bs 0).1) / p⌋ : ℤ) - p - (cellAt bs 0).1) =
        dhi - dlo := by
      ring
    rw [hsum]
    exact div_self (sub_ne_zero.mpr (ne_of_gt hd))
  · rw [axisWeightAt_circ_split 0 (ne_of_lt hd) hcross]
    apply div_pos
    · apply add_pos_of_nonneg_of_pos (overlapLen_nonneg _ _ _ _)
      apply overlapLen_pos
      rw [max_self]
      exact lt_min (by linarith) hlo0
    · linarith
  · rw [axisWeightAt_circ_split (bs.length - 1) (ne_of_lt hd) hcross]
    apply div_pos
    · apply add_pos_of_pos_of_nonneg
      · apply overlapLen_pos
        rw [hspan, min_self]
        exact max_lt hwlo_lt hlolast
      · exact overlapLen_nonneg _ _ _ _
    · linarith
  · intro a b haS hab hbS
    have hfl0 : (⌊(a - (cellAt bs 0).1) / p⌋ : ℤ) = 0 := by
      rw [Int.floor_eq_zero_iff]
      constructor
      · exact div_nonneg (by linarith) (le_of_lt hp)
      · rw [div_lt_one hp]
        linarith
    have hane : ¬ (a - p * (⌊(a - (cellAt bs 0).1) / p⌋ : ℤ) =
        b - p * (⌊(a - (cellAt bs 0).1) / p⌋ : ℤ)) := by
      intro hcontra
      exact absurd (by linarith : a = b) (ne_of_lt hab)
    have hsing : b - p * (⌊(a - (cellAt bs 0).1) / p⌋ : ℤ) ≤ (cellAt bs 0).1 + p := by
      rw [hfl0]
      push_cast
      linarith
    rw [Finset.sum_congr rfl (fun j _ => axisWeightAt_circ_single j hane hsing), hfl0]
    push_cast
    simp only [mul_zero, sub_zero]
    rw [← Finset.sum_div,
      sum_overlapLen_span h hne (le_of_lt hab) haS (by rw [hspan]; exact hbS)]
    exact div_self (sub_ne_zero.mpr (ne_of_gt hab))

end AreaWeightedRegrid

namespace AreaWeightedRegrid

/-- Witness for claim C8: a four-cell circular longitude axis covering
0 to 360 with period 360, and a destination cell from -15 to 15
straddling the seam: the fractions sum to 1, both the first and the
last source cell contribute, and the equivalent unwrapped cell from
75 to 105 also has fractions summing to 1. -/
theorem claim_C8_circular_wraparound_witness :
    (∑ j ∈ Finset.range 4, axisWeightAt true 360
      [((0 : ℚ), 90), (90, 180), (180, 270), (270, 360)] (-15) 15 j) = 1 ∧
    0 < axisWeightAt true 360
      [((0 : ℚ), 90), (90, 180), (180, 270), (270, 360)] (-15) 15 0 ∧
    0 < axisWeightAt true 360
      [((0 : ℚ), 90), (90, 180), (180, 270), (270, 360)] (-15) 15 3 ∧
    (∑ j ∈ Finset.range 4, axisWeightAt true 360
      [((0 : ℚ), 90), (90, 180), (180, 270), (270, 360)] 75 105 j) = 1 := by
  have hfl : (⌊(-15 : ℚ) / 360⌋ : ℤ) = -1 := by
    rw [Int.floor_eq_iff]
    norm_num
  have h := @claim_C8_circular_wraparound
    [((0 : ℚ), 90), (90, 180), (180, 270), (270, 360)] 360
    (by norm_num [isAscending]) (List.cons_ne_nil _ _)
    (by norm_num [cellAt]) (by norm_num)
    (-15) 15 (by norm_num) (by norm_num)
    (by norm_num [cellAt, hfl])
  exact ⟨h.1, h.2.1, h.2.2.1,
    h.2.2.2 75 105 (by norm_num [cellAt]) (by norm_num) (by norm_num [cellAt])⟩

end AreaWeightedRegrid

namespace AreaWeightedRegrid

/-- Helper: the transpose of a rectangular matrix stored as a row
list. -/
def transposeMat (dflt : α) (m : List (List α)) : List (List α) :=
  (List.range (m.headD []).length).map fun j => m.map fun row => row.getD j dflt

/-- Modelled from the spec (section 4.5, LocateSpatialDims): swapping
the stored dimension order of a field: the data and mask matrices are
transposed and the dimension-order flag flipped; the grid, reference
token and logical content are unchanged. -/
def transposeF (f : Field) : Field :=
  { f with
    data := transposeMat 0 f.data
    mask := transposeMat false f.mask
    transposed := !f.transposed }

lemma getD_map_list {α β : Type} (g : α → β) (l : List α) (i : ℕ) (d : β) (da : α)
    (hg : g da = d) : (l.map g).getD i d = g (l.getD i da) := by
  by_cases hi : i < l.length
  · rw [List.getD_eq_getElem _ _ (by simpa using hi), List.getD_eq_getElem _ _ hi,
      List.getElem_map]
  · rw [List.getD_eq_default _ _ (by simpa using Nat.le_of_not_lt hi),
      List.getD_eq_default _ _ (Nat.le_of_not_lt hi), hg]

lemma headD_eq_getD {α : Type} (l : List α) (d : α) : l.headD d = l.getD 0 d := by
  cases l <;> rfl

lemma getD_transposeMat {α : Type} (dflt : α) {m : List (List α)} {r c : ℕ}
    (hr : rect m r c) (i j : ℕ) :
    ((transposeMat dflt m).getD j []).getD i dflt = (m.getD i []).getD j dflt := by
  obtain ⟨hlen, hrows⟩ := hr
  cases m with
  | nil =>
    show (([] : List (List α)).getD i []).getD j dflt = _
    rfl
  | cons hd tl =>
    have hhead : hd.length = c := hrows hd (List.mem_cons_self _ _)
    unfold transposeMat
    rw [List.headD_cons, hhead, getD_range_map]
    by_cases hj : j < c
    · rw [if_pos hj]
      exact getD_map_list (fun row => row.getD j dflt) (hd :: tl) i dflt [] rfl
    · rw [if_neg hj]
      show dflt = ((hd :: tl).getD i []).getD j dflt
      by_cases hi : i < (hd :: tl).length
      · rw [List.getD_eq_getElem _ _ hi]
        rw [(List.getD_eq_default _ _ (by
          rw [hrows _ (List.getElem_mem hi)]
          omega) : ((hd :: tl)[i]).getD j dflt = dflt)]
      · rw [List.getD_eq_default _ _ (Nat.le_of_not_lt hi)]
        rfl

lemma transposeMat_buildMat {α : Type} (dflt : α) {r c : ℕ} (hr : 0 < r)
    (f : ℕ → ℕ → α) :
    transposeMat dflt (buildMat r c f) = buildMat c r (fun j i => f i j) := by
  have hhead : (buildMat r c f).headD [] = (List.range c).map (f 0) := by
    rw [headD_eq_getD]
    unfold buildMat
    rw [getD_range_map, if_pos hr]
  unfold transposeMat
  rw [hhead, List.length_map, List.length_range]
  unfold buildMat
  apply List.map_congr_left
  intro j hj
  rw [List.map_map]
  apply List.map_congr_left
  intro i _
  show ((List.range c).map (f i)).getD j dflt = f i j
  rw [getD_range_map, if_pos (List.mem_range.mp hj)]

lemma validate_transposeF (src dest : Field) :
    validate (transposeF src) dest = validate src dest := by
  cases src
  rfl

lemma srcLogicalData_transposeF {f : Field} {r c : ℕ} (hr : rect f.data r c) :
    ∀ iy ix, srcLogicalData (transposeF f) iy ix = srcLogicalData f iy ix := by
  intro iy ix
  unfold srcLogicalData
  have htr : (transposeF f).transposed = !f.transposed := rfl
  have hdt : (transposeF f).data = transposeMat 0 f.data := rfl
  rw [htr, hdt]
  cases ht : f.transposed with
  | false =>
    simp only [Bool.not_false, if_true, Bool.false_eq_true, if_false]
    exact getD_transposeMat 0 hr iy ix
  | true =>
    simp only [Bool.not_true, Bool.false_eq_true, if_false, if_true]
    exact getD_transposeMat 0 hr ix iy

lemma srcLogicalMask_transposeF {f : Field} {r c : ℕ} (hr : rect f.mask r c) :
    ∀ iy ix, srcLogicalMask (transposeF f) iy ix = srcLogicalMask f iy ix := by
  intro iy ix
  unfold srcLogicalMask
  have htr : (transposeF f).transposed = !f.transposed := rfl
  have hdt : (transposeF f).mask = transposeMat false f.mask := rfl
  rw [htr, hdt]
  cases ht : f.transposed with
  | false =>
    simp only [Bool.not_false, if_true, Bool.false_eq_true, if_false]
    exact getD_transposeMat false hr iy ix
  | true =>
    simp only [Bool.not_true, Bool.false_eq_true, if_false, if_true]
    exact getD_transposeMat false hr ix iy

lemma srcCtx_transposeF {f : Field} {r c : ℕ}
    (hd : rect f.data r c) (hm : rect f.mask r c) :
    srcCtx (transposeF f) = srcCtx f := by
  unfold srcCtx
  congr 1
  · funext iy ix
    exact srcLogicalData_transposeF hd iy ix
  · funext iy ix
    exact srcLogicalMask_transposeF hm iy ix

lemma resultField_transposed (src dest : Field) (h : src.transposed = true) :
    resultField src dest =
      { xAxis := dest.xAxis
        yAxis := dest.yAxis
        refToken := src.refToken
        data := buildMat (axBounds dest.xAxis).length (axBounds dest.yAxis).length
          (fun ix iy => destVal (srcCtx src)
            (cellAt (axBounds dest.yAxis) iy).1 (cellAt (axBounds dest.yAxis) iy).2
            (cellAt (axBounds dest.xAxis) ix).1 (cellAt (axBounds dest.xAxis) ix).2)
        mask := buildMat (axBounds dest.xAxis).length (axBounds dest.yAxis).length
          (fun ix iy => destMasked (srcCtx src)
            (cellAt (axBounds dest.yAxis) iy).1 (cellAt (axBounds dest.yAxis) iy).2
            (cellAt (axBounds dest.xAxis) ix).1 (cellAt (axBounds dest.xAxis) ix).2)
        transposed := true } := by
  unfold resultField
  rw [h]
  simp

end AreaWeightedRegrid

namespace AreaWeightedRegrid

/-- Claim C5: dimension-order independence: regridding the transposed
source and then transposing the result equals regridding the
untransposed source directly, whether the regrid validates or not
(validation errors are identical on both sides). -/
theorem claim_C5_transpose_invariance (src dest : Field) (r c : ℕ)
    (hd : rect src.data r c) (hm : rect src.mask r c)
    (hny : 0 < (axBounds dest.yAxis).length)
    (hnx : 0 < (axBounds dest.xAxis).length) :
    Except.map transposeF (regrid_area_weighted (transposeF src) dest) =
      regrid_area_weighted src dest := by
  unfold regrid_area_weighted
  rw [validate_transposeF]
  cases hv : validate src dest with
  | error e => rfl
  | ok u =>
    cases u
    show Except.ok (transposeF (resultField (transposeF src) dest)) =
      Except.ok (resultField src dest)
    congr 1
    cases ht : src.transposed with
    | false =>
      have htT : (transposeF src).transposed = true := by
        show (!src.transposed) = true
        rw [ht]
        rfl
      rw [resultField_transposed _ _ htT, resultField_untransposed _ _ ht,
        srcCtx_transposeF hd hm]
      unfold transposeF
      simp only [Field.mk.injEq]
      refine ⟨by trivial, by trivial, by trivial, ?_, ?_, by trivial⟩
      · rw [transposeMat_buildMat 0 hnx]
      · rw [transposeMat_buildMat false hnx]
    | true =>
      have htF : (transposeF src).transposed = false := by
        show (!src.transposed) = false
        rw [ht]
        rfl
      rw [resultField_untransposed _ _ htF, resultField_transposed _ _ ht,
        srcCtx_transposeF hd hm]
      unfold transposeF
      simp only [Field.mk.injEq]
      refine ⟨by trivial, by trivial, by trivial, ?_, ?_, by trivial⟩
      · rw [transposeMat_buildMat 0 hny]
      · rw [transposeMat_buildMat false hny]

/-- Witness for claim C5 at a concrete 1-by-2 field regridded onto its
own grid. -/
theorem claim_C5_transpose_invariance_witness :
    Except.map transposeF (regrid_area_weighted
      (transposeF (mkField ⟨some [((0 : ℚ), 1), (1, 2)], false, 0⟩
        ⟨some [((0 : ℚ), 1)], false, 0⟩ 0 [[5, 7]] [[false, false]] false))
      (mkField ⟨some [((0 : ℚ), 1), (1, 2)], false, 0⟩
        ⟨some [((0 : ℚ), 1)], false, 0⟩ 0 [[5, 7]] [[false, false]] false)) =
    regrid_area_weighted
      (mkField ⟨some [((0 : ℚ), 1), (1, 2)], false, 0⟩
        ⟨some [((0 : ℚ), 1)], false, 0⟩ 0 [[5, 7]] [[false, false]] false)
      (mkField ⟨some [((0 : ℚ), 1), (1, 2)], false, 0⟩
        ⟨some [((0 : ℚ), 1)], false, 0⟩ 0 [[5, 7]] [[false, false]] false) := by
  apply claim_C5_transpose_invariance _ _ 1 2
  · exact ⟨by decide, by decide⟩
  · exact ⟨by decide, by decide⟩
  · show 0 < (axBounds (some ⟨some [((0 : ℚ), 1)], false, 0⟩)).length
    rw [show axBounds (some ⟨some [((0 : ℚ), 1)], false, 0⟩) = [((0 : ℚ), 1)] by
      simp [axBounds, normalizeBounds_of_ascending (by norm_num [isAscending] :
        isAscending [((0 : ℚ), 1)] = true)]]
    norm_num
  · show 0 < (axBounds (some ⟨some [((0 : ℚ), 1), (1, 2)], false, 0⟩)).length
    rw [show axBounds (some ⟨some [((0 : ℚ), 1), (1, 2)], false, 0⟩) =
        [((0 : ℚ), 1), (1, 2)] by
      simp [axBounds, normalizeBounds_of_ascending (by norm_num [isAscending] :
        isAscending [((0 : ℚ), 1), (1, 2)] = true)]]
    norm_num

end AreaWeightedRegrid

namespace AreaWeightedRegrid

/-- A coordinate as the test helpers use it: points plus optional cell
bounds (source: test_regrid_area_weighted_rectilinear_src_and_grid.py). -/
structure Coord where
  points : List ℚ
  bounds : Option (List Bound)
deriving DecidableEq

/-- Python extended slicing with a positive stride: the elements at
indices 0, k, 2k and so on.  A start offset is taken by dropping a
prefix first. -/
def sliceStride (k : ℕ) : List α → List α
  | [] => []
  | a :: rest => a :: sliceStride k (List.drop (k - 1) rest)
termination_by l => l.length
decreasing_by
  simp only [List.length_drop, List.length_cons]
  omega

/-- Numpy column assignment with broadcasting: writing the upper
bounds column of dst from src succeeds elementwise when the lengths
match, broadcasts a single value across the column, and fails
otherwise. -/
def assignUppers (dst : List Bound) (src : List ℚ) : Option (List Bound) :=
  if src.length = dst.length then
    some ((dst.zip src).map fun q => (q.1.1, q.2))
  else if src.length = 1 then
    some (dst.map fun b => (b.1, src.headD 0))
  else none

/-- Numpy single-element assignment new_bounds[-1, 1] = u. -/
def setLastUpper (bs : List Bound) (u : ℚ) : List Bound :=
  match bs.getLast? with
  | none => bs
  | some b => bs.dropLast ++ [(b.1, u)]

/-- The test helper _subsampled_coord of
test_regrid_area_weighted_rectilinear_src_and_grid.py: validates the
factor and the presence of bounds, subsamples points and bounds with a
stride, rewrites the upper-bound column from the strided tail slice
(with numpy broadcasting semantics), and forces the last upper bound
to the original last upper bound. -/
def _subsampled_coord (coord : Coord) (subsamplefactor : ℚ) : Except String Coord :=
  if subsamplefactor.den ≠ 1 then .error "subsamplefactor must be an integer."
  else if subsamplefactor < 1 then .error "subsamplefactor must be >= 1."
  else
    match coord.bounds with
    | none => .error "The coordinate must have bounds."
    | some bs =>
      let k := subsamplefactor.num.toNat
      let newPoints := sliceStride k coord.points
      let newBounds0 := sliceStride k bs
      let uppers := (sliceStride k (List.drop (k - 1) bs)).map (fun b => b.2)
      match assignUppers newBounds0 uppers with
      | none => .error "could not broadcast input array"
      | some nb =>
        match bs.getLast? with
        | none => .error "index -1 is out of bounds"
        | some lastb => .ok ⟨newPoints, some (setLastUpper nb lastb.2)⟩

end AreaWeightedRegrid

namespace AreaWeightedRegrid

/-- Helper: the first lower bound of a bounds list. -/
def firstLower (bs : List Bound) : ℚ := ((bs.head?).getD (0, 0)).1

/-- Helper: the last upper bound of a bounds list. -/
def lastUpper (bs : List Bound) : ℚ := ((bs.getLast?).getD (0, 0)).2

lemma sliceStride_cons (k : ℕ) (a : α) (rest : List α) :
    sliceStride k (a :: rest) = a :: sliceStride k (List.drop (k - 1) rest) := by
  rw [sliceStride]

lemma firstLower_sliceStride {bs : List Bound} (hne : bs ≠ []) (k : ℕ) :
    firstLower (sliceStride k bs) = firstLower bs := by
  cases bs with
  | nil => exact absurd rfl hne
  | cons b rest =>
    rw [sliceStride_cons]
    rfl

lemma sliceStride_ne_nil {bs : List Bound} (hne : bs ≠ []) (k : ℕ) :
    sliceStride k bs ≠ [] := by
  cases bs with
  | nil => exact absurd rfl hne
  | cons b rest =>
    rw [sliceStride_cons]
    exact List.cons_ne_nil _ _

lemma firstLower_setLastUpper {bs : List Bound} (hne : bs ≠ []) (u : ℚ) :
    firstLower (setLastUpper bs u) = firstLower bs := by
  cases bs with
  | nil => exact absurd rfl hne
  | cons b rest =>
    unfold setLastUpper
    rw [List.getLast?_eq_getLast _ (List.cons_ne_nil _ _)]
    cases rest with
    | nil => rfl
    | cons b2 rest2 =>
      rw [List.dropLast_cons₂]
      rfl

lemma lastUpper_setLastUpper {bs : List Bound} (hne : bs ≠ []) (u : ℚ) :
    lastUpper (setLastUpper bs u) = u := by
  unfold setLastUpper
  rw [List.getLast?_eq_getLast _ hne]
  unfold lastUpper
  rw [List.getLast?_concat]
  rfl

lemma assignUppers_head {dst : List Bound} {src : List ℚ} {nb : List Bound}
    (h : assignUppers dst src = some nb) (hne : dst ≠ []) :
    firstLower nb = firstLower dst ∧ nb ≠ [] := by
  unfold assignUppers at h
  split_ifs at h with h1 h2
  · simp only [Option.some.injEq] at h
    subst h
    cases dst with
    | nil => exact absurd rfl hne
    | cons d drest =>
      cases src with
      | nil => simp at h1
      | cons s srest =>
        constructor
        · rfl
        · exact List.cons_ne_nil _ _
  · simp only [Option.some.injEq] at h
    subst h
    cases dst with
    | nil => exact absurd rfl hne
    | cons d drest =>
      constructor
      · rfl
      · exact List.cons_ne_nil _ _

/-- Claim C9 (amended): the subsampled-coordinate helper raises the
value error for a non-integer factor, a factor below one, and missing
bounds; and whenever the strided tail slice is length-compatible with
the subsampled bounds (equal length, or length one so that numpy
broadcasting applies; in particular whenever the factor divides the
cell count), it returns a coordinate whose first lower bound and last
upper bound equal those of the input, so the subsampled axis spans the
same extent.  For other shapes the upper-bound column assignment
fails, so no coordinate is returned. -/
theorem claim_C9_subsampled_coord (points : List ℚ) (bs : List Bound) (f : ℚ) :
    (f.den ≠ 1 →
      _subsampled_coord ⟨points, some bs⟩ f = .error "subsamplefactor must be an integer.") ∧
    (f < 1 → f.den = 1 →
      _subsampled_coord ⟨points, some bs⟩ f = .error "subsamplefactor must be >= 1.") ∧
    (f.den = 1 → 1 ≤ f →
      _subsampled_coord ⟨points, none⟩ f = .error "The coordinate must have bounds.") ∧
    (∀ k : ℕ, f = (k : ℚ) → 1 ≤ k → bs ≠ [] →
      ((sliceStride k (List.drop (k - 1) bs)).length = (sliceStride k bs).length ∨
        (sliceStride k (List.drop (k - 1) bs)).length = 1) →
      ∃ nb : List Bound,
        _subsampled_coord ⟨points, some bs⟩ f = .ok ⟨sliceStride k points, some nb⟩ ∧
        firstLower nb = firstLower bs ∧
        lastUpper nb = lastUpper bs) := by
  refine ⟨?_, ?_, ?_, ?_⟩
  · intro hden
    unfold _subsampled_coord
    rw [if_pos hden]
  · intro hlt hden
    unfold _subsampled_coord
    rw [if_neg (by simp [hden]), if_pos hlt]
  · intro hden hge
    unfold _subsampled_coord
    rw [if_neg (by simp [hden]), if_neg (not_lt.mpr hge)]
  · intro k hfk hk1 hne hbroad
    subst hfk
    have hden : ((k : ℚ)).den = 1 := Rat.den_natCast k
    have hnotlt : ¬ ((k : ℚ) < 1) := not_lt.mpr (by exact_mod_cast hk1)
    have htn : ((k : ℚ)).num.toNat = k := by
      rw [Rat.num_natCast]
      exact Int.toNat_natCast k
    unfold _subsampled_coord
    rw [if_neg (by simp [hden]), if_neg hnotlt]
    dsimp only
    rw [htn]
    have hlen : ((sliceStride k (List.drop (k - 1) bs)).map (fun b => b.2)).length =
        (sliceStride k (List.drop (k - 1) bs)).length := List.length_map _ _
    have hassign : ∃ nb, assignUppers (sliceStride k bs)
        ((sliceStride k (List.drop (k - 1) bs)).map (fun b => b.2)) = some nb := by
      unfold assignUppers
      rcases hbroad with hb | hb
      · rw [if_pos (by rw [hlen, hb])]
        exact ⟨_, rfl⟩
      · by_cases hcase : ((sliceStride k (List.drop (k - 1) bs)).map
            (fun b => b.2)).length = (sliceStride k bs).length
        · rw [if_pos hcase]
          exact ⟨_, rfl⟩
        · rw [if_neg hcase, if_pos (by rw [hlen, hb])]
          exact ⟨_, rfl⟩
    obtain ⟨nb, hnb⟩ := hassign
    rw [hnb]
    rw [List.getLast?_eq_getLast _ hne]
    obtain ⟨hhead, hnbne⟩ := assignUppers_head hnb (sliceStride_ne_nil hne k)
    refine ⟨setLastUpper nb (bs.getLast hne).2, rfl, ?_, ?_⟩
    · rw [firstLower_setLastUpper hnbne, hhead, firstLower_sliceStride hne]
    · rw [lastUpper_setLastUpper hnbne]
      unfold lastUpper
      rw [List.getLast?_eq_getLast _ hne]
      rfl

end AreaWeightedRegrid

namespace AreaWeightedRegrid

lemma sliceStride_nil (k : ℕ) : sliceStride k ([] : List α) = [] := by
  rw [sliceStride]

/-- Counterexample for claim C9 as stated: five cells subsampled by a
factor of two make the strided upper-bound slice two entries long
against three subsampled cells, so the numpy column assignment fails
and no coordinate is returned, contradicting "for every coordinate
with bounds and every integer subsamplefactor at least 1 it returns a
coordinate". -/
theorem claim_C9_counterexample :
    _subsampled_coord ⟨[0, 1, 2, 3, 4],
        some [((0 : ℚ), 1), (1, 2), (2, 3), (3, 4), (4, 5)]⟩ 2 =
      .error "could not broadcast input array" := by
  unfold _subsampled_coord
  rw [if_neg (by norm_num), if_neg (by norm_num)]
  dsimp only
  rw [show ((2 : ℚ)).num.toNat = 2 from rfl]
  have hslice1 : sliceStride 2 ([(0, 1), (1, 2), (2, 3), (3, 4), (4, 5)] : List Bound) =
      ([(0, 1), (2, 3), (4, 5)] : List Bound) := by
    simp [sliceStride_cons, sliceStride_nil]
  have hslice2 : sliceStride 2 (List.drop (2 - 1)
        ([(0, 1), (1, 2), (2, 3), (3, 4), (4, 5)] : List Bound)) =
      ([(1, 2), (3, 4)] : List Bound) := by
    simp [sliceStride_cons, sliceStride_nil]
  rw [hslice1, hslice2]
  rw [show assignUppers ([(0, 1), (2, 3), (4, 5)] : List Bound)
      (([(1, 2), (3, 4)] : List Bound).map (fun b => b.2)) = none from by
    unfold assignUppers
    norm_num]

/-- Witness for the amended claim C9: the three rejection branches at
concrete inputs, and a four-cell coordinate subsampled by two, whose
result spans the same extent from 0 to 4. -/
theorem claim_C9_subsampled_coord_witness :
    (_subsampled_coord ⟨[0, 1], some [((0 : ℚ), 1), (1, 2)]⟩ (1 / 2) =
      .error "subsamplefactor must be an integer.") ∧
    (_subsampled_coord ⟨[0, 1], some [((0 : ℚ), 1), (1, 2)]⟩ 0 =
      .error "subsamplefactor must be >= 1.") ∧
    (_subsampled_coord ⟨[0, 1], none⟩ 2 =
      .error "The coordinate must have bounds.") ∧
    (∃ nb : List Bound,
      _subsampled_coord ⟨[0, 1, 2, 3], some [((0 : ℚ), 1), (1, 2), (2, 3), (3, 4)]⟩ 2 =
        .ok ⟨sliceStride 2 [0, 1, 2, 3], some nb⟩ ∧
      firstLower nb = firstLower [((0 : ℚ), 1), (1, 2), (2, 3), (3, 4)] ∧
      lastUpper nb = lastUpper [((0 : ℚ), 1), (1, 2), (2, 3), (3, 4)]) := by
  refine ⟨?_, ?_, ?_, ?_⟩
  · exact (claim_C9_subsampled_coord [0, 1] [((0 : ℚ), 1), (1, 2)] (1 / 2)).1 (by norm_num)
  · exact (claim_C9_subsampled_coord [0, 1] [((0 : ℚ), 1), (1, 2)] 0).2.1
      (by norm_num) (by norm_num)
  · exact (claim_C9_subsampled_coord [0, 1] [((0 : ℚ), 1), (1, 2)] 2).2.2.1
      (by norm_num) (by norm_num)
  · exact (claim_C9_subsampled_coord [0, 1, 2, 3]
      [((0 : ℚ), 1), (1, 2), (2, 3), (3, 4)] 2).2.2.2 2 (by norm_num) (by norm_num)
      (List.cons_ne_nil _ _)
      (Or.inl (by simp [sliceStride_cons, sliceStride_nil]))

end AreaWeightedRegrid

namespace UmFF

/-- Keyword arguments forwarded to the PP variable loader
(source: um/_ff_replacement.py); the only key this module ever sets is
word_depth. -/
structure LoaderKwargs where
  word_depth : Option ℤ
deriving DecidableEq

/-- The PP field generator class handed to the variable loader; this
module always passes FF2PP (source: um/_ff_replacement.py). -/
inductive PPGen
  | FF2PP
deriving DecidableEq

/-- load_cubes of um/_ff_replacement.py: delegates to
_load_cubes_variable_loader — defined in iris.fileformats.pp, outside
this module, hence abstracted here as the function parameter loader —
passing the FF2PP field generator, the constraints and the loader
keyword arguments through unchanged. -/
def load_cubes (loader : List α → β → PPGen → Option γ → Option LoaderKwargs → δ)
    (filenames : List α) (callback : β) (constraints : Option γ)
    (lkwargs : Option LoaderKwargs) : δ :=
  loader filenames callback PPGen.FF2PP constraints lkwargs

/-- load_cubes_32bit_ieee of um/_ff_replacement.py: calls load_cubes on
the same filenames, callback and constraints with _loader_kwargs set to
a dict holding word_depth 4. -/
def load_cubes_32bit_ieee (loader : List α → β → PPGen → Option γ → Option LoaderKwargs → δ)
    (filenames : List α) (callback : β) (constraints : Option γ) : δ :=
  load_cubes loader filenames callback constraints (some ⟨some 4⟩)

/-- The specification reading of the 32-bit entry point, written from
the spec text for comparison with the source definition above: exactly
the generic loader at the same arguments with word depth fixed to 4
bytes. -/
def load_cubes_32bit_spec (loader : List α → β → PPGen → Option γ → Option LoaderKwargs → δ)
    (filenames : List α) (callback : β) (constraints : Option γ) : δ :=
  load_cubes loader filenames callback constraints (some ⟨some 4⟩)

/-- Claim C10: for every variable loader, filenames, callback and
constraints, load_cubes_32bit_ieee returns exactly the result of
load_cubes at the same arguments with loader keyword arguments holding
word_depth 4, and hence agrees with the specification reading: the
32-bit entry point is a pure specialisation of the generic loader with
word depth fixed to 4 bytes. -/
theorem claim_C10_load_cubes_32bit
    (loader : List α → β → PPGen → Option γ → Option LoaderKwargs → δ)
    (filenames : List α) (callback : β) (constraints : Option γ) :
    load_cubes_32bit_ieee loader filenames callback constraints =
      load_cubes loader filenames callback constraints (some ⟨some 4⟩) ∧
    load_cubes_32bit_ieee loader filenames callback constraints =
      load_cubes_32bit_spec loader filenames callback constraints :=
  ⟨rfl, rfl⟩

end UmFF
